import Mathlib

/-
Verification development for the synthetic-data job/chunk orchestration
pipeline (src/server): core/models.py, core/job_manager.py,
services/generation_service.py, services/fallback_generator.py,
storage/vector_store.py, storage/handlers.py.

Shallow embedding conventions:
* Python dicts holding row data become association lists
  (first-match lookup), Python None becomes Option.none.
* Wall-clock timestamps are modelled by an explicit natural-number
  argument passed to the mutating operations; created_at and the
  ChunkMetadata timestamp, which no modelled code path reads, are elided.
* Floats are modelled as rationals; content hashing (hashlib) is elided
  because no modelled code path inspects checksum contents.
-/

/-- Python value as it appears in generated rows (models.py uses Any). -/
inductive PyValue where
  | str (s : String)
  | int (n : Int)
  | bool (b : Bool)
  | rat (q : Rat)
deriving DecidableEq, Repr

/-- A generated row: field name to value, modelling dict[str, Any]. -/
abbrev Row : Type := List (String × PyValue)

/-- Models Python dict.get: first binding of the key, None when absent. -/
def Row.get (row : Row) (field : String) : Option PyValue :=
  match row.find? (fun kv => kv.fst = field) with
  | some kv => some kv.snd
  | none => none

/-- Python str() of a value, used in f-string formatting of row content. -/
def PyValue.toStr : PyValue → String
  | .str s => s
  | .int n => toString n
  | .bool b => if b then "True" else "False"
  | .rat q => toString q

/-- FieldType enum from core/models.py. -/
inductive FieldType where
  | string | integer | float | boolean | date | datetime
  | email | phone | uuid | enum | json | array
deriving DecidableEq, Repr

/-- OutputFormat enum from core/models.py. -/
inductive OutputFormat where
  | csv | json | parquet
deriving DecidableEq, Repr

/-- JobStatus enum from core/models.py. -/
inductive JobStatus where
  | pending | schema_validation | generating | paused
  | completed | failed | cancelled
deriving DecidableEq, Repr

/-- FieldConstraint from core/models.py; the Python field named default is
modelled as defaultValue. -/
structure FieldConstraint where
  unique : Bool := false
  nullable : Bool := true
  min_value : Option Rat := none
  max_value : Option Rat := none
  min_length : Option Nat := none
  max_length : Option Nat := none
  pattern : Option String := none
  enum_values : Option (List String) := none
  format : Option String := none
  defaultValue : Option PyValue := none
deriving DecidableEq, Repr

/-- FieldDefinition from core/models.py. -/
structure FieldDefinition where
  name : String
  type : FieldType
  description : Option String := none
  constraints : FieldConstraint := {}
  sample_values : List PyValue := []
  depends_on : Option (List String) := none
  generation_hint : Option String := none
deriving DecidableEq, Repr

/-- DataSchema from core/models.py (free-form metadata elided: no modelled
code path reads it). -/
structure DataSchema where
  fields : List FieldDefinition
  description : Option String := none
deriving DecidableEq, Repr

/-- ChunkMetadata from core/models.py (timestamp elided; checksum and
size_bytes kept as the optional fields they are). -/
structure ChunkMetadata where
  chunk_id : Nat
  job_id : Nat
  rows_generated : Nat
  storage_location : String
  checksum : Option String := none
  size_bytes : Option Nat := none
deriving DecidableEq, Repr

/-- StorageType enum from core/models.py. -/
inductive StorageType where
  | memory | disk | cloud
deriving DecidableEq, Repr

/-- JobSpecification from core/models.py (created_at, created_by and
metadata elided: no modelled code path reads them). -/
structure JobSpecification where
  job_id : Nat
  schema : DataSchema
  total_rows : Nat
  chunk_size : Nat := 1000
  output_format : OutputFormat := .csv
  storage_type : StorageType := .disk
  uniqueness_fields : List String := []
  seed : Option Int := none
deriving DecidableEq, Repr

/-- JobProgress from core/models.py; timestamps are step numbers supplied
by the caller of each mutating operation. -/
structure JobProgress where
  job_id : Nat
  status : JobStatus
  rows_generated : Nat := 0
  chunks_completed : Nat := 0
  total_chunks : Nat
  current_chunk : Option Nat := none
  started_at : Option Nat := none
  completed_at : Option Nat := none
  paused_at : Option Nat := none
  error_message : Option String := none
  progress_percentage : Rat := 0
deriving DecidableEq, Repr

/-- JobProgress.update_progress from core/models.py. -/
def JobProgress.update_progress (p : JobProgress) : JobProgress :=
  if 0 < p.total_chunks then
    { p with progress_percentage :=
        ((p.chunks_completed : Rat) / (p.total_chunks : Rat)) * 100 }
  else p

/-- JobState from core/models.py. -/
structure JobState where
  specification : JobSpecification
  progress : JobProgress
  chunks : List ChunkMetadata := []
  schema_validated : Bool := false
  can_resume : Bool := true
deriving DecidableEq, Repr

/-- JobState.add_chunk from core/models.py: append the chunk, bump the
counters, recompute the percentage. -/
def JobState.addChunk (job : JobState) (chunk : ChunkMetadata) : JobState :=
  { job with
    chunks := job.chunks ++ [chunk]
    progress :=
      ({ job.progress with
          chunks_completed := job.progress.chunks_completed + 1
          rows_generated := job.progress.rows_generated + chunk.rows_generated
        }).update_progress }

/-- JobManager.create_job from core/job_manager.py: ceiling-divide the row
target into chunks and start the progress at zero in status PENDING. -/
def JobManager.create_job (specification : JobSpecification) : JobState :=
  let total_chunks :=
    (specification.total_rows + specification.chunk_size - 1) / specification.chunk_size
  { specification := specification
    progress :=
      { job_id := specification.job_id
        status := .pending
        total_chunks := total_chunks
        rows_generated := 0
        chunks_completed := 0 }
    chunks := []
    schema_validated := false
    can_resume := true }

/-- JobManager.update_job_status from core/job_manager.py, acting on the
state of the addressed job; now is the wall-clock stamp. -/
def JobManager.update_job_status (job : JobState) (status : JobStatus)
    (error : Option String) (now : Nat) : JobState :=
  let p := { job.progress with status := status }
  let p :=
    if status = .generating ∧ job.progress.started_at = none then
      { p with started_at := some now }
    else if status = .completed then
      { p with completed_at := some now, progress_percentage := 100 }
    else if status = .paused then
      { p with paused_at := some now }
    else if status = .failed then
      { p with error_message := error, completed_at := some now }
    else p
  { job with progress := p }

/-- JobManager.add_chunk from core/job_manager.py: delegates to
JobState.add_chunk with no duplicate-id check of any kind. -/
def JobManager.add_chunk (job : JobState) (chunk : ChunkMetadata) : JobState :=
  job.addChunk chunk

/-- JobManager.control_job from core/job_manager.py: returns the new state
of the addressed job and the boolean result; illegal actions return the
state unchanged with false. -/
def JobManager.control_job (job : JobState) (action : String) (now : Nat) :
    JobState × Bool :=
  if action = "pause" then
    if job.progress.status = .generating then
      (JobManager.update_job_status job .paused none now, true)
    else (job, false)
  else if action = "resume" then
    if job.progress.status = .paused then
      let job := JobManager.update_job_status job .generating none now
      ({ job with progress := { job.progress with paused_at := none } }, true)
    else (job, false)
  else if action = "cancel" then
    if job.progress.status ≠ .completed ∧ job.progress.status ≠ .failed then
      let job := JobManager.update_job_status job .cancelled none now
      ({ job with can_resume := false }, true)
    else (job, false)
  else if action = "retry" then
    if job.progress.status = .failed ∧ job.can_resume then
      ({ job with progress :=
          { job.progress with status := .pending, error_message := none } }, true)
    else (job, false)
  else (job, false)

/-- The methods the JobManager class in core/job_manager.py actually
defines, in source order. -/
def JobManager.methodNames : List String :=
  ["__init__", "create_job", "get_job", "update_job_status", "add_chunk",
   "validate_schema", "control_job", "list_jobs", "cleanup_old_jobs",
   "_persist_job", "_load_jobs", "_remove_job"]

/-- Modelled from the spec: JobManager.set_current_chunk, which
generation_service.py invokes (lines 216 and 312) and the repository test
test_job_manager.py exercises, but job_manager.py never defines. Per the
spec data model, current_chunk is set while a chunk is actively being
generated and cleared afterwards; the test asserts exactly that the call
stores its argument in progress.current_chunk. -/
def JobManager.set_current_chunk (job : JobState) (chunk : Option Nat) : JobState :=
  { job with progress := { job.progress with current_chunk := chunk } }

/-
Vector store (storage/vector_store.py). The embedding model and the cosine
distance are the external collaborators of spec section 6; they are
parameters of the model. The Chroma collection is the single persistent
collection that VectorStore.__init__ opens under the configured
collection_name: one list of entries shared by every job, where each entry
records the job id only as metadata.
-/

/-- Configuration of the vector store: the external embedder, the distance
function of the index (cosine space), and the configured
similarity_threshold. -/
structure VSConfig (V : Type) where
  embed : String → V
  dist : V → V → Rat
  similarity_threshold : Rat

/-- One record of the Chroma collection: the stored embedding, the
document (canonical content string), and the job id kept as metadata. -/
structure VSEntry (V : Type) where
  job_id : String
  content : String
  embedding : V
deriving DecidableEq, Repr

/-- Insertion step of the model of Python sorted. -/
def insertSorted {α : Type} (le : α → α → Bool) (a : α) : List α → List α
  | [] => [a]
  | x :: xs => if le x a then x :: insertSorted le a xs else a :: x :: xs

/-- Ascending sort modelling Python sorted (with a key function folded
into the comparison). -/
def insertionSort {α : Type} (le : α → α → Bool) : List α → List α
  | [] => []
  | x :: xs => insertSorted le x (insertionSort le xs)

/-- VectorStore._build_content: canonical string from the unique fields, or
from all field names sorted when none are given; empty when any chosen
field has no value. -/
def buildContent (row : Row) (unique_fields : List String) : String :=
  let fields :=
    if unique_fields.isEmpty then
      insertionSort (fun a b => a ≤ b) (row.map Prod.fst)
    else unique_fields
  let parts := fields.map (fun field =>
    match row.get field with
    | none => none
    | some value => some (field ++ ":" ++ value.toStr))
  if parts.contains none then ""
  else String.intercalate " | " (parts.map (fun p => p.getD ""))

/-- The distance Chroma returns for a query with n_results=1: the least
distance to any stored embedding, none when the collection is empty. -/
def nearestDistance {V : Type} (cfg : VSConfig V) (e : V) :
    List (VSEntry V) → Option Rat
  | [] => none
  | x :: xs =>
    match nearestDistance cfg e xs with
    | none => some (cfg.dist e x.embedding)
    | some d => some (min (cfg.dist e x.embedding) d)

/-- VectorStore._is_duplicate: nearest-neighbour distance at most the
similarity threshold. -/
def isDuplicate {V : Type} (cfg : VSConfig V) (entries : List (VSEntry V))
    (e : V) : Bool :=
  match nearestDistance cfg e entries with
  | none => false
  | some d => d ≤ cfg.similarity_threshold

/-- VectorStore._add_embedding: append a record carrying the job id as
metadata (the generated uuid id string is elided). -/
def addEmbedding {V : Type} (entries : List (VSEntry V)) (job_id : String)
    (content : String) (e : V) : List (VSEntry V) :=
  entries ++ [{ job_id := job_id, content := content, embedding := e }]

/-- VectorStore.filter_new_rows: returns (accepted, duplicates, updated
collection). Rows with empty canonical content are accepted without being
indexed; otherwise query-then-insert against the shared collection. -/
def filter_new_rows {V : Type} (cfg : VSConfig V) (job_id : String)
    (rows : List Row) (unique_fields : List String)
    (entries : List (VSEntry V)) : List Row × List Row × List (VSEntry V) :=
  match rows with
  | [] => ([], [], entries)
  | row :: rest =>
    let content := buildContent row unique_fields
    if content = "" then
      let (acc, dup, st) := filter_new_rows cfg job_id rest unique_fields entries
      (row :: acc, dup, st)
    else
      let e := cfg.embed content
      if isDuplicate cfg entries e then
        let (acc, dup, st) := filter_new_rows cfg job_id rest unique_fields entries
        (acc, row :: dup, st)
      else
        let entries := addEmbedding entries job_id content e
        let (acc, dup, st) := filter_new_rows cfg job_id rest unique_fields entries
        (row :: acc, dup, st)

/-
Fallback generator (services/fallback_generator.py), data-generation part.
random.Random is an external deterministic PRNG: it is modelled as a
structure of pure functions over an abstract state, initialised from the
optional seed. uuid4 and the wall clock are genuinely external sources:
they are modelled by a World (a uuid stream consumed through a counter
carried across calls, plus the current day and minute); calendar rendering
of dates is abstracted to the day or minute number.
-/

/-- Deterministic PRNG interface standing for random.Random: randint is
inclusive on both ends, random yields the unit-interval draw behind
uniform, randbelow is the index draw behind choice. -/
structure RngImpl where
  R : Type
  init : Option Int → R
  randint : R → Int → Int → Int × R
  random : R → Rat × R
  randbelow : R → Nat → Nat × R

/-- External nondeterminism visible to the fallback generator: the uuid4
stream and the current date and time. -/
structure World where
  uuids : Nat → String
  todayDays : Int
  nowMinutes : Int

/-- Generator state threaded through one generate_data_chunk call: the rng
state and the position in the uuid stream. -/
structure GenSt (impl : RngImpl) where
  rng : impl.R
  uuidCtr : Nat

/-- Python round(x, 2) on the rational model of a float. -/
def round2 (q : Rat) : Rat := (round (q * 100) : Int) / 100

/-- Python int() truncation toward zero on the rational model. -/
def pyInt (q : Rat) : Int := if 0 ≤ q then ⌊q⌋ else ⌈q⌉

/-- Python name.replace(underscore, space).title() for lowercase field
names. -/
def pyTitle (s : String) : String :=
  String.intercalate " " ((s.splitOn "_").map String.capitalize)

/-- rng.uniform(a, b) as cpython computes it from random(). -/
def RngImpl.uniform (impl : RngImpl) (r : impl.R) (a b : Rat) : Rat × impl.R :=
  let (u, r) := impl.random r
  (a + (b - a) * u, r)

/-- rng.choice(seq) for a non-empty sequence: seq indexed by randbelow of
its length. -/
def RngImpl.choice {α : Type} (impl : RngImpl) (r : impl.R) (seq : List α)
    (dflt : α) : α × impl.R :=
  let (i, r) := impl.randbelow r seq.length
  (seq.getD i dflt, r)

/-- FallbackGenerator._generate_string: indexes sample values, no rng
draw. -/
def fbGenerateString (field : FieldDefinition) (index : Int) : PyValue :=
  if field.sample_values ≠ [] then
    field.sample_values.getD (index.toNat % field.sample_values.length) (.str "")
  else
    .str (pyTitle field.name ++ " " ++ toString (index + 1))

/-- FallbackGenerator._generate_integer: bounds from the constraints with
the source defaults. -/
def fbGenerateInteger (impl : RngImpl) (field : FieldDefinition)
    (r : impl.R) : Int × impl.R :=
  let lower := match field.constraints.min_value with
    | some q => pyInt q
    | none => 0
  let upper := match field.constraints.max_value with
    | some q => pyInt q
    | none => lower + 500
  let upper := if upper ≤ lower then lower + 100 else upper
  impl.randint r lower upper

/-- FallbackGenerator._generate_value: one candidate value for a field;
only the uuid, date and datetime branches consult the World. -/
def fbGenerateValue (impl : RngImpl) (w : World) (field : FieldDefinition)
    (st : GenSt impl) (index : Int) : PyValue × GenSt impl :=
  match field.type with
  | .string => (fbGenerateString field index, st)
  | .integer =>
    let (n, r) := fbGenerateInteger impl field st.rng
    (.int n, { st with rng := r })
  | .float =>
    let (u, r) := impl.uniform st.rng 0 500
    (.rat (round2 u), { st with rng := r })
  | .boolean =>
    let (b, r) := impl.choice st.rng [true, false] true
    (.bool b, { st with rng := r })
  | .date =>
    let (d, r) := impl.randint st.rng 0 180
    (.str ("day:" ++ toString (w.todayDays - d)), { st with rng := r })
  | .datetime =>
    let (h, r) := impl.randint st.rng 0 240
    let (m, r) := impl.randint r 0 59
    (.str ("minute:" ++ toString (w.nowMinutes - 60 * h - m)), { st with rng := r })
  | .email =>
    let (k, r) := impl.randint st.rng 1 9999
    (.str ("user" ++ toString (index + k) ++ "@example.com"), { st with rng := r })
  | .phone =>
    let (a, r) := impl.randint st.rng 100 999
    let (b, r) := impl.randint r 1000 9999
    (.str ("+1-555-" ++ toString a ++ "-" ++ toString b), { st with rng := r })
  | .uuid =>
    (.str (w.uuids st.uuidCtr), { st with uuidCtr := st.uuidCtr + 1 })
  | _ =>
    match field.constraints.enum_values with
    | some (v :: vs) =>
      let (s, r) := impl.choice st.rng (v :: vs) ""
      (.str s, { st with rng := r })
    | _ =>
      if field.sample_values ≠ [] then
        let (v, r) := impl.choice st.rng field.sample_values (.str "")
        (v, { st with rng := r })
      else
        let (n, r) := impl.randint st.rng 1 100
        (.int n, { st with rng := r })

/-- FallbackGenerator._make_unique_value; the Python expression
max_value or 1000 is falsy on both None and zero. -/
def fbMakeUniqueValue (impl : RngImpl) (w : World) (field : FieldDefinition)
    (st : GenSt impl) (index : Int) : PyValue × GenSt impl :=
  let base := pyTitle field.name
  match field.type with
  | .string =>
    let (k, r) := impl.randint st.rng 100 999
    (.str (base ++ " " ++ toString (index + k)), { st with rng := r })
  | .integer =>
    let upper := match field.constraints.max_value with
      | some q => if q = 0 then 1000 else pyInt q
      | none => 1000
    let (k, r) := impl.randint st.rng 1 50
    (.int (upper + index + k), { st with rng := r })
  | .float =>
    let upper : Rat := match field.constraints.max_value with
      | some q => if q = 0 then 1000 else q
      | none => 1000
    let (u, r) := impl.uniform st.rng 1 10
    (.rat (round2 (upper + u + index)), { st with rng := r })
  | .uuid =>
    (.str (w.uuids st.uuidCtr), { st with uuidCtr := st.uuidCtr + 1 })
  | .email =>
    let (k, r) := impl.randint st.rng 1000 9999
    (.str ("user" ++ toString (index + k) ++ "@example.com"), { st with rng := r })
  | .phone =>
    let (a, r) := impl.randint st.rng 200 998
    let (b, r) := impl.randint r 1000 9999
    (.str ("+1-555-" ++ toString a ++ "-" ++ toString b), { st with rng := r })
  | _ =>
    let (n, r) := impl.randint st.rng 1 10000
    (.int n, { st with rng := r })

/-- Association-list view of the per-call uniqueness_sets dict. -/
abbrev SeenSets : Type := List (String × List PyValue)

/-- Membership in one uniqueness set (absent key means empty set). -/
def SeenSets.mem (sets : SeenSets) (field : String) (v : PyValue) : Bool :=
  match sets.find? (fun kv => kv.fst = field) with
  | some kv => kv.snd.contains v
  | none => false

/-- dict.setdefault(field, empty set). -/
def SeenSets.ensure (sets : SeenSets) (field : String) : SeenSets :=
  match sets.find? (fun kv => kv.fst = field) with
  | some _ => sets
  | none => sets ++ [(field, [])]

/-- Adding a value to one uniqueness set. -/
def SeenSets.add (sets : SeenSets) (field : String) (v : PyValue) : SeenSets :=
  sets.map (fun kv => if kv.fst = field then (kv.fst, kv.snd ++ [v]) else kv)

/-- Whether the dict has the key (Python: field.name in uniqueness_sets). -/
def SeenSets.hasKey (sets : SeenSets) (field : String) : Bool :=
  (sets.find? (fun kv => kv.fst = field)).isSome

/-- The bounded regeneration loop of generate_data_chunk: while the value
collides and fewer than 20 attempts were made, draw again at a shifted
index. Returns the value, the state and the final attempt counter. -/
def fbUniqueRetry (impl : RngImpl) (w : World) (field : FieldDefinition)
    (seen : List PyValue) (index : Int) :
    Nat → Int → PyValue → GenSt impl → PyValue × GenSt impl × Int
  | 0, attempts, v, st => (v, st, attempts)
  | fuel + 1, attempts, v, st =>
    if seen.contains v then
      let (v2, st2) := fbGenerateValue impl w field st (index + attempts + 1)
      fbUniqueRetry impl w field seen index fuel (attempts + 1) v2 st2
    else (v, st, attempts)

/-- One field of one row in generate_data_chunk: candidate value, the
uniqueness retry loop, the guaranteed-unique final fallback, and the set
update. -/
def fbGenerateField (impl : RngImpl) (w : World) (field : FieldDefinition)
    (sets : SeenSets) (st : GenSt impl) (index : Int) :
    PyValue × SeenSets × GenSt impl :=
  let uniq := field.constraints.unique || sets.hasKey field.name
  let (v, st) := fbGenerateValue impl w field st index
  if uniq then
    let sets := sets.ensure field.name
    let seen := match sets.find? (fun kv => kv.fst = field.name) with
      | some kv => kv.snd
      | none => []
    let (v, st, attempts) := fbUniqueRetry impl w field seen index 20 0 v st
    let (v, st) :=
      if seen.contains v then fbMakeUniqueValue impl w field st (index + attempts + 1)
      else (v, st)
    (v, sets.add field.name v, st)
  else (v, sets, st)

/-- The inner field loop of generate_data_chunk over the schema fields. -/
def fbGenerateRow (impl : RngImpl) (w : World) (fields : List FieldDefinition)
    (sets : SeenSets) (st : GenSt impl) (index : Int) :
    Row × SeenSets × GenSt impl :=
  match fields with
  | [] => ([], sets, st)
  | field :: rest =>
    let (v, sets, st) := fbGenerateField impl w field sets st index
    let (row, sets, st) := fbGenerateRow impl w rest sets st index
    ((field.name, v) :: row, sets, st)

/-- The outer row loop of generate_data_chunk, counting index upward. -/
def fbGenerateRows (impl : RngImpl) (w : World) (fields : List FieldDefinition)
    (sets : SeenSets) (st : GenSt impl) (index : Int) :
    Nat → List Row × GenSt impl
  | 0 => ([], st)
  | n + 1 =>
    let (row, sets, st) := fbGenerateRow impl w fields sets st index
    let (rows, st) := fbGenerateRows impl w fields sets st (index + 1) n
    (row :: rows, st)

/-- FallbackGenerator.generate_data_chunk: fresh rng from the seed,
uniqueness sets seeded from existing_values, then num_rows rows; the uuid
counter enters at uuidCtr and the final counter is returned with the
rows. -/
def generate_data_chunk (impl : RngImpl) (w : World) (schema : DataSchema)
    (num_rows : Nat) (existing_values : List (String × List PyValue))
    (seed : Option Int) (uuidCtr : Nat) : List Row × Nat :=
  let st : GenSt impl := { rng := impl.init seed, uuidCtr := uuidCtr }
  let sets : SeenSets := existing_values.map (fun kv => (kv.fst, kv.snd))
  let (rows, st) := fbGenerateRows impl w schema.fields sets st 0 num_rows
  (rows, st.uuidCtr)

/-
Generation pipeline (services/generation_service.py together with
storage/handlers.py DiskStorageHandler). The two row generators are the
RowGenerator collaborators of spec section 6: the primary one is the
external Gemini client, so both are parameters given as oracle functions
of the call index (the statefulness of the external service), the
requested row count, and the existing-values map; the job-constant schema
and seed arguments are folded into the oracle. QuotaExceededError is the
quota outcome; its quota_metric and retry_after decorations of the
warning string are elided, leaving the base warning text.
-/

/-- Which generator served a call. -/
inductive Caller where
  | primary | fallback
deriving DecidableEq, Repr

/-- One generator invocation as recorded in a run trace: the chunk it was
for, the generator called, the job status at the moment of the call, and
whether the call raised QuotaExceededError. -/
structure GenEvent where
  chunkId : Nat
  caller : Caller
  statusAtCall : JobStatus
  quotaRaised : Bool
deriving DecidableEq, Repr

/-- Outcome of one primary (Gemini) generation call. -/
inductive PrimaryResult where
  | ok (rows : List Row)
  | quota
  | err (msg : String)

/-- The two row generators as oracles over (call index, rows needed,
existing values). -/
structure Generators where
  primary : Nat → Nat → Option (List (String × List PyValue)) → PrimaryResult
  fallback : Nat → Nat → Option (List (String × List PyValue)) → List Row

/-- Pipeline configuration: the optional vector store with its settings
(settings.vector_store.enabled and max_retry_attempts), the generator
oracles, and whether the job manager object exposes set_current_chunk
(job_manager.py as shipped does not, see JobManager.methodNames; the
spec-completed manager does). -/
structure PipeConfig (V : Type) where
  vectorStore : Option (VSConfig V)
  maxRetryAttempts : Nat
  gens : Generators
  hasSetCurrentChunk : Bool

/-- Pipeline state: the job (single-active-worker precondition, so one job
suffices), the shared vector store collection, the chunk files on disk
keyed by storage location, the oracle call counters, and the event
trace. -/
structure PipeState (V : Type) where
  job : JobState
  entries : List (VSEntry V)
  disk : List (String × List Row)
  primaryCalls : Nat := 0
  fallbackCalls : Nat := 0
  events : List GenEvent := []

/-- DiskStorageHandler.store_chunk: write the rows under a per-(job,
chunk) location and return the metadata (content hash and byte size
elided). -/
def disk_store_chunk (disk : List (String × List Row)) (job_id chunk_id : Nat)
    (data : List Row) : List (String × List Row) × ChunkMetadata :=
  let location := toString job_id ++ "/chunk_" ++ toString chunk_id
  (disk ++ [(location, data)],
   { chunk_id := chunk_id, job_id := job_id, rows_generated := data.length,
     storage_location := location })

/-- DiskStorageHandler.retrieve_chunk: none models FileNotFoundError. -/
def disk_retrieve_chunk (disk : List (String × List Row))
    (metadata : ChunkMetadata) : Option (List Row) :=
  (disk.find? (fun kv => kv.fst = metadata.storage_location)).map Prod.snd

/-- Merge/download failures, distinct from generation failures. -/
inductive MergeError where
  | notCompleted
  | fileNotFound (location : String)
deriving DecidableEq, Repr

/-- The body of DiskStorageHandler._merge_csv over already-sorted chunks:
concatenate chunk contents in order; a missing chunk file aborts the merge
with the open error (FileNotFoundError), it is never skipped. -/
def mergeRows (disk : List (String × List Row)) :
    List ChunkMetadata → Except MergeError (List Row)
  | [] => .ok []
  | c :: rest =>
    match disk_retrieve_chunk disk c with
    | none => .error (.fileNotFound c.storage_location)
    | some rows =>
      match mergeRows disk rest with
      | .error e => .error e
      | .ok more => .ok (rows ++ more)

/-- DiskStorageHandler.merge_chunks: sort by chunk id, then merge. -/
def disk_merge_chunks (disk : List (String × List Row))
    (chunks : List ChunkMetadata) : Except MergeError (List Row) :=
  mergeRows disk (insertionSort (fun a b => a.chunk_id ≤ b.chunk_id) chunks)

/-- Appending the values of one row to the collected existing-values map
(GenerationService._collect_existing_values inner loop, also reused at
generation_service.py lines 291 to 296). -/
def addRowValues (existing : List (String × List PyValue)) (row : Row) :
    List (String × List PyValue) :=
  existing.map (fun kv =>
    match row.get kv.fst with
    | some v => (kv.fst, kv.snd ++ [v])
    | none => kv)

/-- GenerationService._collect_existing_values: start every uniqueness
field at the empty list, then read back each stored chunk, skipping chunks
whose file is missing, and collect the non-null values. -/
def collect_existing_values (job : JobState) (disk : List (String × List Row))
    (uniqueness_fields : List String) : List (String × List PyValue) :=
  job.chunks.foldl
    (fun existing chunk =>
      match disk_retrieve_chunk disk chunk with
      | none => existing
      | some rows => rows.foldl addRowValues existing)
    (uniqueness_fields.map (fun f => (f, ([] : List PyValue))))

/-- Errors generate_chunk can raise. -/
inductive ChunkError where
  | alreadyCompleted
  | chunkAlreadyGenerated
  | allRowsGenerated
  | attributeError
  | generatorError (msg : String)
  | noRowsGenerated
deriving DecidableEq, Repr

/-- str(exc) for the errors of generate_chunk as run_job records them. -/
def ChunkError.msg : ChunkError → String
  | .alreadyCompleted => "Job is already completed"
  | .chunkAlreadyGenerated => "Chunk has already been generated for job"
  | .allRowsGenerated => "Job has already generated all rows"
  | .attributeError => "JobManager object has no attribute set_current_chunk"
  | .generatorError m => m
  | .noRowsGenerated =>
    "No new rows generated for this chunk after applying uniqueness checks"

/-- ChunkGenerationResponse from core/models.py. -/
structure ChunkGenerationResponse where
  chunk_id : Nat
  data : List Row
  rows_generated : Nat
  metadata : ChunkMetadata
  issues : List String
deriving DecidableEq, Repr

/-- State of the retry loop inside generate_chunk (lines 229 to 296):
accepted rows so far, duplicate count, the per-chunk sticky flag
use_fallback_only with its warning string, the existing-values map (none
models the None passed when there are no uniqueness fields), and the
threaded store, counters and trace. -/
structure LoopSt (V : Type) where
  deduped : List Row
  duplicatesTotal : Nat
  useFallbackOnly : Bool
  fallbackIssue : Option String
  existing : Option (List (String × List PyValue))
  entries : List (VSEntry V)
  primaryCalls : Nat
  fallbackCalls : Nat
  events : List GenEvent

/-- One generation call of the loop body: fallback when the sticky flag is
set, otherwise primary with the QuotaExceededError handler that sets the
flag, records the warning, and serves the same request from fallback. A
non-quota primary error propagates. -/
def attemptBatch {V : Type} (cfg : PipeConfig V) (chunkId : Nat)
    (status : JobStatus) (rows_needed : Nat) (ls : LoopSt V) :
    Except String (List Row) × LoopSt V :=
  if ls.useFallbackOnly then
    let batch := cfg.gens.fallback ls.fallbackCalls rows_needed ls.existing
    (.ok batch,
     { ls with fallbackCalls := ls.fallbackCalls + 1,
               events := ls.events ++ [({ chunkId := chunkId, caller := .fallback, statusAtCall := status, quotaRaised := false } : GenEvent)] })
  else
    match cfg.gens.primary ls.primaryCalls rows_needed ls.existing with
    | .ok batch =>
      (.ok batch,
       { ls with primaryCalls := ls.primaryCalls + 1,
                 events := ls.events ++ [({ chunkId := chunkId, caller := .primary, statusAtCall := status, quotaRaised := false } : GenEvent)] })
    | .err m =>
      (.error m,
       { ls with primaryCalls := ls.primaryCalls + 1,
                 events := ls.events ++ [({ chunkId := chunkId, caller := .primary, statusAtCall := status, quotaRaised := false } : GenEvent)] })
    | .quota =>
      let ls :=
        { ls with primaryCalls := ls.primaryCalls + 1,
                  useFallbackOnly := true,
                  fallbackIssue := some "Gemini quota exceeded",
                  events := ls.events ++ [({ chunkId := chunkId, caller := .primary, statusAtCall := status, quotaRaised := true } : GenEvent)] }
      let batch := cfg.gens.fallback ls.fallbackCalls rows_needed ls.existing
      (.ok batch,
       { ls with fallbackCalls := ls.fallbackCalls + 1,
                 events := ls.events ++ [({ chunkId := chunkId, caller := .fallback, statusAtCall := status, quotaRaised := false } : GenEvent)] })

/-- The while loop of generate_chunk: run while accepted rows are short of
the target and attempts remain (the fuel is max_attempts minus the
attempts already made). Returns the final loop state and the message of a
propagated generator error, if any. -/
def chunkLoop {V : Type} (cfg : PipeConfig V) (chunkId : Nat)
    (status : JobStatus) (rowsThisChunk : Nat) (uniquenessFields : List String)
    (jobIdStr : String) : Nat → LoopSt V → LoopSt V × Option String
  | 0, ls => (ls, none)
  | fuel + 1, ls =>
    if rowsThisChunk ≤ ls.deduped.length then (ls, none)
    else
      let rows_needed := rowsThisChunk - ls.deduped.length
      match attemptBatch cfg chunkId status rows_needed ls with
      | (.error m, ls) => (ls, some m)
      | (.ok batch, ls) =>
        let (batch, ls) :=
          match cfg.vectorStore with
          | some vs =>
            if batch ≠ [] then
              let (acc, dup, entries) :=
                filter_new_rows vs jobIdStr batch uniquenessFields ls.entries
              (acc, { ls with
                        duplicatesTotal := ls.duplicatesTotal + dup.length,
                        entries := entries })
            else (batch, ls)
          | none => (batch, ls)
        if batch = [] then
          if cfg.vectorStore.isNone then (ls, none)
          else chunkLoop cfg chunkId status rowsThisChunk uniquenessFields jobIdStr fuel ls
        else
          let ls :=
            { ls with
                deduped := ls.deduped ++ batch,
                existing :=
                  match ls.existing with
                  | some ex => some (batch.foldl addRowValues ex)
                  | none => none }
          chunkLoop cfg chunkId status rowsThisChunk uniquenessFields jobIdStr fuel ls

/-- The middle of GenerationService.generate_chunk (lines 218 to 296): the
uniqueness-field fallback to unique-constrained schema fields when the
vector store is active, the existing-values collection, and the retry
loop. -/
def runChunkLoop {V : Type} (cfg : PipeConfig V) (st : PipeState V)
    (job : JobState) (chunk_id rows_this_chunk : Nat) :
    LoopSt V × Option String :=
  let uniquenessFields := job.specification.uniqueness_fields
  let uniquenessFields :=
    if cfg.vectorStore.isSome ∧ uniquenessFields = [] then
      (job.specification.schema.fields.filter
        (fun f => f.constraints.unique)).map (fun f => f.name)
    else uniquenessFields
  let existing :=
    if uniquenessFields ≠ [] then
      some (collect_existing_values job st.disk uniquenessFields)
    else none
  let maxAttempts := if cfg.vectorStore.isSome then cfg.maxRetryAttempts else 1
  let ls0 : LoopSt V :=
    { deduped := [], duplicatesTotal := 0, useFallbackOnly := false,
      fallbackIssue := none, existing := existing, entries := st.entries,
      primaryCalls := st.primaryCalls, fallbackCalls := st.fallbackCalls,
      events := st.events }
  chunkLoop cfg chunk_id job.progress.status rows_this_chunk uniquenessFields
    (toString job.specification.job_id) maxAttempts ls0

/-- The tail of GenerationService.generate_chunk (lines 298 to 337): a
propagated generator error or an empty accepted batch marks the job FAILED
(the except of line 334); otherwise the rows are persisted, the chunk is
registered, current_chunk is cleared, and the completion check of lines
314 to 318 runs. -/
def finishChunk {V : Type} (st : PipeState V) (job : JobState)
    (chunk_id now : Nat) (lsm : LoopSt V × Option String) :
    Except ChunkError ChunkGenerationResponse × PipeState V :=
  let ls := lsm.1
  let st :=
    { st with entries := ls.entries, primaryCalls := ls.primaryCalls,
              fallbackCalls := ls.fallbackCalls, events := ls.events }
  match lsm.2 with
  | some m =>
    (.error (.generatorError m),
     { st with job := JobManager.update_job_status job .failed (some m) now })
  | none =>
    if ls.deduped = [] then
      (.error .noRowsGenerated,
       { st with job := JobManager.update_job_status job .failed (some (ChunkError.msg .noRowsGenerated)) now })
    else
      let stored := disk_store_chunk st.disk job.specification.job_id chunk_id ls.deduped
      let job := JobManager.add_chunk job stored.2
      let job := JobManager.set_current_chunk job none
      let job :=
        if job.progress.total_chunks ≤ job.progress.chunks_completed
            ∨ job.specification.total_rows ≤ job.progress.rows_generated then
          JobManager.update_job_status job .completed none now
        else job
      let issues :=
        (if ls.duplicatesTotal ≠ 0 then
          ["Removed " ++ toString ls.duplicatesTotal ++
            " duplicate rows via vector store"]
        else []) ++
        (match ls.fallbackIssue with
         | some s => [s]
         | none => [])
      (.ok { chunk_id := chunk_id, data := ls.deduped,
             rows_generated := ls.deduped.length, metadata := stored.2,
             issues := issues },
       { st with job := job, disk := stored.1 })

/-- GenerationService.generate_chunk: the prelude checks of lines 196 to
216, then the retry loop, then the persist/register/completion tail. The
errors of the prelude are raised before the try block, so they leave the
job status alone (except the line 208 completion). -/
def generate_chunk {V : Type} (cfg : PipeConfig V) (st : PipeState V)
    (chunk_id : Nat) (now : Nat) :
    Except ChunkError ChunkGenerationResponse × PipeState V :=
  if st.job.progress.status = .completed then (.error .alreadyCompleted, st)
  else if st.job.chunks.any (fun c => c.chunk_id = chunk_id) then
    (.error .chunkAlreadyGenerated, st)
  else if (st.job.specification.total_rows : Int) -
      (st.job.progress.rows_generated : Int) ≤ 0 then
    (.error .allRowsGenerated,
     { st with job := JobManager.update_job_status st.job .completed none now })
  else
    let rows_this_chunk : Nat :=
      min st.job.specification.chunk_size
        ((st.job.specification.total_rows : Int) -
          (st.job.progress.rows_generated : Int)).toNat
    let job :=
      if st.job.progress.status = .pending then
        JobManager.update_job_status st.job .generating none now
      else st.job
    if ¬ cfg.hasSetCurrentChunk then (.error .attributeError, { st with job := job })
    else
      let job := JobManager.set_current_chunk job (some chunk_id)
      finishChunk st job chunk_id now (runChunkLoop cfg st job chunk_id rows_this_chunk)

/-- DatasetDownloadInfo from core/models.py (download_url, file path, byte
size and checksum elided; merged holds the merged artifact contents). -/
structure DatasetDownloadInfo where
  job_id : Nat
  total_rows : Nat
  merged : List Row
deriving DecidableEq, Repr

/-- GenerationService.merge_job_dataset: requires status COMPLETED, or
opportunistically marks COMPLETED when all rows are generated; then merges
the chunks in ascending chunk id order. A merge failure propagates
without touching the job state here. -/
def merge_job_dataset {V : Type} (st : PipeState V) (now : Nat) :
    Except MergeError DatasetDownloadInfo × PipeState V :=
  let job := st.job
  let checked : Option JobState :=
    if job.progress.status = .completed then some job
    else if job.progress.rows_generated < job.specification.total_rows then none
    else some (JobManager.update_job_status job .completed none now)
  match checked with
  | none => (.error .notCompleted, st)
  | some job =>
    match disk_merge_chunks st.disk job.chunks with
    | .error e => (.error e, { st with job := job })
    | .ok rows =>
      (.ok { job_id := job.specification.job_id,
             total_rows := job.progress.rows_generated,
             merged := rows },
       { st with job := job })

/-- Errors run_job can surface. -/
inductive RunError where
  | cancelledBeforeStart
  | cancelledDuring
  | chunk (e : ChunkError)
  | merge (e : MergeError)
deriving DecidableEq, Repr

/-- str(exc) for run_job failures as its except block records them. -/
def RunError.msg : RunError → String
  | .cancelledBeforeStart => "Job has been cancelled"
  | .cancelledDuring => "Job was cancelled during execution"
  | .chunk e => e.msg
  | .merge .notCompleted => "Job is not completed yet"
  | .merge (.fileNotFound l) => "Chunk file not found: " ++ l

/-- The chunk loop of run_job (lines 357 to 368) over the chunk indices:
re-read the job state at each boundary (the interventions function
injects whatever concurrent control actions happened since the previous
boundary), abort on CANCELLED, skip already-present chunk ids, otherwise
generate. -/
def runChunks {V : Type} (cfg : PipeConfig V)
    (interventions : Nat → JobState → JobState) (now : Nat) :
    List Nat → PipeState V → Except RunError Unit × PipeState V
  | [], st => (.ok (), st)
  | i :: rest, st =>
    let st := { st with job := interventions i st.job }
    if st.job.progress.status = .cancelled then (.error .cancelledDuring, st)
    else if st.job.chunks.any (fun c => c.chunk_id = i) then
      runChunks cfg interventions now rest st
    else
      match generate_chunk cfg st i now with
      | (.error e, st) => (.error (.chunk e), st)
      | (.ok _, st) => runChunks cfg interventions now rest st

/-- GenerationService.run_job: refuse a cancelled job (before the try
block, so without marking FAILED), move restartable states to GENERATING,
run the chunk loop, force COMPLETED after it, then merge. Every exception
inside the try block, merge failures included, is caught and recorded by
marking the job FAILED with the exception text. -/
def run_job {V : Type} (cfg : PipeConfig V) (st : PipeState V)
    (interventions : Nat → JobState → JobState) (now : Nat) :
    Except RunError DatasetDownloadInfo × PipeState V :=
  if st.job.progress.status = .cancelled then (.error .cancelledBeforeStart, st)
  else
    let st :=
      if st.job.progress.status = .pending
          ∨ st.job.progress.status = .schema_validation
          ∨ st.job.progress.status = .paused
          ∨ st.job.progress.status = .failed then
        { st with job := JobManager.update_job_status st.job .generating none now }
      else st
    let indices := (List.range st.job.progress.total_chunks).map (fun i => i + 1)
    match runChunks cfg interventions now indices st with
    | (.error e, st) =>
      (.error e,
       { st with job := JobManager.update_job_status st.job .failed (some e.msg) now })
    | (.ok _, st) =>
      let st :=
        if st.job.progress.status ≠ .completed then
          { st with job := JobManager.update_job_status st.job .completed none now }
        else st
      match merge_job_dataset st now with
      | (.error e, st) =>
        (.error (.merge e),
         { st with job := JobManager.update_job_status st.job .failed
                            (some (RunError.msg (.merge e))) now })
      | (.ok d, st) => (.ok d, st)

/-- No primary call after a quota signal: every event after a
quota-raising one comes from the fallback generator. -/
def stickyEvents : List GenEvent → Bool
  | [] => true
  | e :: rest =>
    (!e.quotaRaised || rest.all (fun x => decide (x.caller = .fallback)))
      && stickyEvents rest

/-- Whether a trace contains no quota signal. -/
def noQuotaEvents (l : List GenEvent) : Bool :=
  l.all (fun e => !e.quotaRaised)

/-
Concrete fixtures used by the closed evaluations below.
-/

/-- A one-field integer schema. -/
def exSchema : DataSchema := { fields := [{ name := "id", type := .integer }] }

/-- A row with just an integer id. -/
def exRow (n : Int) : Row := [("id", PyValue.int n)]

/-- A batch of n identical rows. -/
def constRows (n : Nat) : List Row := List.replicate n (exRow 1)

/-- A concrete vector-store configuration: strings as embeddings, distance
zero exactly on equal strings, threshold zero. -/
def exVS : VSConfig String :=
  { embed := fun s => s
    dist := fun a b => if a = b then 0 else 1
    similarity_threshold := 0 }

/-- The identity intervention: no concurrent control action. -/
def noIntervention : Nat → JobState → JobState := fun _ j => j

/-- Generators that always deliver the requested number of rows. -/
def okGens : Generators :=
  { primary := fun _ n _ => .ok (constRows n)
    fallback := fun _ n _ => constRows n }

/-- Two chunks of one row each, primary signals quota on its first call
only. -/
def c1Spec : JobSpecification :=
  { job_id := 7, schema := exSchema, total_rows := 2, chunk_size := 1 }

/-- Primary raising quota on call 0, succeeding afterwards. -/
def c1Gens : Generators :=
  { primary := fun i n _ => if i = 0 then .quota else .ok (constRows n)
    fallback := fun _ n _ => constRows n }

/-- Pipeline configuration for the quota scenario, no vector store. -/
def c1Cfg : PipeConfig String :=
  { vectorStore := none, maxRetryAttempts := 5, gens := c1Gens,
    hasSetCurrentChunk := true }

/-- Fresh pipeline state for the quota scenario. -/
def c1St : PipeState String :=
  { job := JobManager.create_job c1Spec, entries := [], disk := [] }

/-- A pipeline configuration whose manager exposes exactly the methods
job_manager.py defines. -/
def c2Cfg : PipeConfig String :=
  { vectorStore := none, maxRetryAttempts := 5, gens := okGens,
    hasSetCurrentChunk := JobManager.methodNames.contains "set_current_chunk" }

/-- A fresh pending job of two chunks. -/
def c2St : PipeState String :=
  { job := JobManager.create_job
      { job_id := 5, schema := exSchema, total_rows := 20, chunk_size := 10 },
    entries := [], disk := [] }

/-- Four rows in chunks of two, deduplicating on the id field. -/
def c3Spec : JobSpecification :=
  { job_id := 9, schema := exSchema, total_rows := 4, chunk_size := 2,
    uniqueness_fields := ["id"] }

/-- Primary whose second batch repeats an id from its first batch. -/
def c3Gens : Generators :=
  { primary := fun i _ _ =>
      if i = 0 then .ok [exRow 1, exRow 2] else .ok [exRow 1, exRow 3]
    fallback := fun _ _ _ => [] }

/-- Pipeline configuration with the vector store enabled and a single
generation attempt per chunk. -/
def c3Cfg : PipeConfig String :=
  { vectorStore := some exVS, maxRetryAttempts := 1, gens := c3Gens,
    hasSetCurrentChunk := true }

/-- Fresh pipeline state for the dedup-shortfall scenario. -/
def c3St : PipeState String :=
  { job := JobManager.create_job c3Spec, entries := [], disk := [] }

/-- Two chunks of one row each for the pause scenario. -/
def c4Cfg : PipeConfig String :=
  { vectorStore := none, maxRetryAttempts := 5, gens := okGens,
    hasSetCurrentChunk := true }

/-- Fresh pipeline state for the pause scenario. -/
def c4St : PipeState String :=
  { job := JobManager.create_job
      { job_id := 4, schema := exSchema, total_rows := 2, chunk_size := 1 },
    entries := [], disk := [] }

/-- Intervention pausing the job at the boundary before chunk 2, via the
control operation itself. -/
def c4Pause : Nat → JobState → JobState :=
  fun i j => if i = 2 then (JobManager.control_job j "pause" 1).fst else j

/-- Metadata registered twice in the duplicate-chunk scenario. -/
def exMeta : ChunkMetadata :=
  { chunk_id := 1, job_id := 5, rows_generated := 10, storage_location := "loc" }

/-- A fresh two-chunk job for the duplicate-chunk scenario. -/
def c5Job : JobState :=
  JobManager.create_job
    { job_id := 5, schema := exSchema, total_rows := 20, chunk_size := 10 }

/-- A job driven to CANCELLED through the control operation. -/
def c6Job : JobState :=
  (JobManager.control_job
    (JobManager.update_job_status
      (JobManager.create_job
        { job_id := 6, schema := exSchema, total_rows := 10, chunk_size := 10 })
      .generating none 0)
    "cancel" 1).fst

/-- A COMPLETED one-chunk job whose chunk file is absent from disk. -/
def c9St : PipeState String :=
  { job :=
      { specification :=
          { job_id := 3, schema := exSchema, total_rows := 1, chunk_size := 1 }
        progress :=
          { job_id := 3, status := .completed, rows_generated := 1,
            chunks_completed := 1, total_chunks := 1,
            progress_percentage := 100 }
        chunks :=
          [{ chunk_id := 1, job_id := 3, rows_generated := 1,
             storage_location := "L" }] }
    entries := [], disk := [] }

/-- Pipeline configuration for the missing-chunk merge scenario. -/
def c9Cfg : PipeConfig String :=
  { vectorStore := none, maxRetryAttempts := 5, gens := okGens,
    hasSetCurrentChunk := true }

/-- A small linear congruential step standing in for the Mersenne twister
behind random.Random in concrete evaluations. -/
def lcgStep (x : Nat) : Nat := (x * 1103515245 + 12345) % 2147483648

/-- A concrete deterministic PRNG implementation. -/
def testRng : RngImpl :=
  { R := Nat
    init := fun seed =>
      match seed with
      | some s => s.toNat % 2147483648
      | none => 0
    randint := fun r a b =>
      (a + (lcgStep r : Int) % (b - a + 1), lcgStep r)
    random := fun r => (((lcgStep r % 1000 : Nat) : Rat) / 1000, lcgStep r)
    randbelow := fun r n => (if n = 0 then 0 else lcgStep r % n, lcgStep r) }

/-- A world with an injective uuid stream. -/
def wStream : World :=
  { uuids := fun i => "uuid-" ++ toString i, todayDays := 100, nowMinutes := 5000 }

/-- A schema with a single uuid field. -/
def uuidSchema : DataSchema := { fields := [{ name := "token", type := .uuid }] }

/-- A schema with only seed-driven field types. -/
def seededSchema : DataSchema :=
  { fields :=
      [{ name := "id", type := .integer },
       { name := "score", type := .float },
       { name := "email", type := .email }] }

/-- Decidable equality on Except results, for closed evaluations. -/
def exceptDecEq {ε α : Type} [DecidableEq ε] [DecidableEq α] :
    (a b : Except ε α) → Decidable (a = b)
  | .error x, .error y => decidable_of_iff (x = y) (by simp)
  | .ok x, .ok y => decidable_of_iff (x = y) (by simp)
  | .error _, .ok _ => .isFalse (by simp)
  | .ok _, .error _ => .isFalse (by simp)

instance {ε α : Type} [DecidableEq ε] [DecidableEq α] :
    DecidableEq (Except ε α) := exceptDecEq

/-- Generator oracles never returning more rows than requested, the
contract every batch of gemini_client.generate_data_chunk and
FallbackGenerator.generate_data_chunk satisfies (both are asked for
num_rows rows). -/
def BoundedGens (g : Generators) : Prop :=
  (∀ i n ex rows, g.primary i n ex = .ok rows → rows.length ≤ n) ∧
  (∀ i n ex, (g.fallback i n ex).length ≤ n)

/-
Theorems.
-/

theorem nearestDistance_append_le {V : Type} (cfg : VSConfig V) (e : V)
    (x : VSEntry V) : ∀ l : List (VSEntry V),
    ∃ d, nearestDistance cfg e (l ++ [x]) = some d ∧ d ≤ cfg.dist e x.embedding
  | [] => ⟨cfg.dist e x.embedding, by simp [nearestDistance], le_refl _⟩
  | y :: l => by
    obtain ⟨d, hd, hle⟩ := nearestDistance_append_le cfg e x l
    refine ⟨min (cfg.dist e y.embedding) d, ?_, ?_⟩
    · simp [nearestDistance, hd]
    · exact le_trans (min_le_right _ _) hle

theorem nearestDistance_embedding_eq {V : Type} (cfg : VSConfig V) (e : V) :
    ∀ (l1 l2 : List (VSEntry V)),
    l1.map VSEntry.embedding = l2.map VSEntry.embedding →
    nearestDistance cfg e l1 = nearestDistance cfg e l2
  | [], [], _ => rfl
  | [], _ :: _, h => by simp at h
  | _ :: _, [], h => by simp at h
  | x :: l1, y :: l2, h => by
    simp only [List.map_cons, List.cons.injEq] at h
    simp only [nearestDistance, h.1,
      nearestDistance_embedding_eq cfg e l1 l2 h.2]

/-- Claim C5 counterexample: JobStore.add_chunk accepts a second call with
an already-present chunk_id: the chunk list then holds the id twice and
both counters are double-counted, so no DuplicateChunk rejection
happens. -/
theorem add_chunk_duplicate_double_count :
    ((JobManager.add_chunk (JobManager.add_chunk c5Job exMeta) exMeta).chunks.map
        ChunkMetadata.chunk_id = [1, 1]) ∧
    (JobManager.add_chunk (JobManager.add_chunk c5Job exMeta) exMeta).progress.chunks_completed
        = 2 ∧
    (JobManager.add_chunk (JobManager.add_chunk c5Job exMeta) exMeta).progress.rows_generated
        = 20 := by decide

/-- Claim C5 amended: JobManager.add_chunk performs no duplicate check at
all: every call, duplicate chunk_id or not, appends the metadata and adds
to chunks_completed and rows_generated; the only duplicate guard lives in
GenerationService.generate_chunk, which raises before calling add_chunk
when the chunk_id is already present. -/
theorem add_chunk_unconditional_append (job : JobState) (chunk : ChunkMetadata) :
    (JobManager.add_chunk job chunk).chunks = job.chunks ++ [chunk] ∧
    (JobManager.add_chunk job chunk).progress.chunks_completed =
      job.progress.chunks_completed + 1 ∧
    (JobManager.add_chunk job chunk).progress.rows_generated =
      job.progress.rows_generated + chunk.rows_generated := by
  refine ⟨rfl, ?_, ?_⟩ <;>
    simp only [JobManager.add_chunk, JobState.addChunk,
      JobProgress.update_progress] <;>
    split <;> rfl

/-- Claim C6 counterexample: on a job in status CANCELLED the control
action cancel returns true, not false: CANCELLED is not terminal for
cancel in job_manager.py, which only refuses cancel on COMPLETED and
FAILED jobs. -/
theorem control_cancel_on_cancelled_returns_true :
    c6Job.progress.status = .cancelled ∧
    (JobManager.control_job c6Job "cancel" 2).snd = true := by decide

/-- Claim C6 amended: control_job enforces the transition table as coded:
pause only from GENERATING, resume only from PAUSED, retry only from
FAILED with can_resume, and cancel from every status except COMPLETED and
FAILED, so cancel is accepted on a CANCELLED job; every refused action
returns false and leaves the job state unchanged. -/
theorem control_job_transition_table (job : JobState) (now : Nat) :
    ((JobManager.control_job job "pause" now).snd = true ↔
        job.progress.status = .generating) ∧
    ((JobManager.control_job job "resume" now).snd = true ↔
        job.progress.status = .paused) ∧
    ((JobManager.control_job job "cancel" now).snd = true ↔
        (job.progress.status ≠ .completed ∧ job.progress.status ≠ .failed)) ∧
    ((JobManager.control_job job "retry" now).snd = true ↔
        (job.progress.status = .failed ∧ job.can_resume = true)) ∧
    (∀ action : String, (JobManager.control_job job action now).snd = false →
        (JobManager.control_job job action now).fst = job) := by
  refine ⟨?_, ?_, ?_, ?_, ?_⟩
  · simp only [JobManager.control_job]
    split_ifs with h1 h2 <;> simp_all
  · simp only [JobManager.control_job]
    split_ifs <;> simp_all
  · simp only [JobManager.control_job]
    split_ifs <;> simp_all
  · simp only [JobManager.control_job]
    split_ifs <;> simp_all
  · intro action h
    simp only [JobManager.control_job] at h ⊢
    split_ifs at h ⊢ <;> simp_all

/-- Closed instance for the amended claim C6 theorem: the table evaluated
on a concrete CANCELLED job. -/
theorem control_job_transition_table_witness :
    ((JobManager.control_job c6Job "pause" 2).snd = true ↔
        c6Job.progress.status = .generating) ∧
    ((JobManager.control_job c6Job "resume" 2).snd = true ↔
        c6Job.progress.status = .paused) ∧
    ((JobManager.control_job c6Job "cancel" 2).snd = true ↔
        (c6Job.progress.status ≠ .completed ∧ c6Job.progress.status ≠ .failed)) ∧
    ((JobManager.control_job c6Job "retry" 2).snd = true ↔
        (c6Job.progress.status = .failed ∧ c6Job.can_resume = true)) ∧
    (∀ action : String, (JobManager.control_job c6Job action 2).snd = false →
        (JobManager.control_job c6Job action 2).fst = c6Job) :=
  control_job_transition_table c6Job 2

/-- Claim C7 counterexample: the classification of the very same row for
job B flips from accepted to duplicate once a row of job A has been
inserted, because the collection is shared: two-run noninterference across
job ids fails. -/
theorem dedup_cross_job_interference :
    (filter_new_rows exVS "B" [exRow 1] ["id"] []).1 = [exRow 1] ∧
    (filter_new_rows exVS "B" [exRow 1] ["id"]
        (filter_new_rows exVS "A" [exRow 1] ["id"] []).2.2).1 = [] := by decide

/-- Claim C7 amended: the vector store keeps one global collection for
every job; the job id is stored only as metadata and the nearest-neighbour
query never filters on it, so the accept/duplicate split is a function of
the stored embeddings alone, whatever job ids wrote them and whatever job
id queries. -/
theorem filter_new_rows_ignores_job_id {V : Type} (cfg : VSConfig V)
    (jobA jobB : String) (uf : List String) : ∀ (rows : List Row)
    (e1 e2 : List (VSEntry V)),
    e1.map VSEntry.embedding = e2.map VSEntry.embedding →
    (filter_new_rows cfg jobA rows uf e1).1 =
      (filter_new_rows cfg jobB rows uf e2).1 ∧
    (filter_new_rows cfg jobA rows uf e1).2.1 =
      (filter_new_rows cfg jobB rows uf e2).2.1 ∧
    (filter_new_rows cfg jobA rows uf e1).2.2.map VSEntry.embedding =
      (filter_new_rows cfg jobB rows uf e2).2.2.map VSEntry.embedding
  | [], e1, e2, h => ⟨rfl, rfl, h⟩
  | row :: rest, e1, e2, h => by
    have hdup : isDuplicate cfg e1 (cfg.embed (buildContent row uf)) =
        isDuplicate cfg e2 (cfg.embed (buildContent row uf)) := by
      unfold isDuplicate
      rw [nearestDistance_embedding_eq cfg _ e1 e2 h]
    by_cases hc : buildContent row uf = ""
    · have ih := filter_new_rows_ignores_job_id cfg jobA jobB uf rest e1 e2 h
      simp only [filter_new_rows, hc, if_pos rfl]
      exact ⟨by simp [ih.1], ih.2.1, ih.2.2⟩
    · by_cases hd : isDuplicate cfg e2 (cfg.embed (buildContent row uf)) = true
      · have ih := filter_new_rows_ignores_job_id cfg jobA jobB uf rest e1 e2 h
        simp only [filter_new_rows, hc, if_neg hc, hdup, hd, if_pos rfl]
        simp only [if_true]
        exact ⟨ih.1, by simp [ih.2.1], ih.2.2⟩
      · have h2 : (addEmbedding e1 jobA (buildContent row uf)
              (cfg.embed (buildContent row uf))).map VSEntry.embedding =
            (addEmbedding e2 jobB (buildContent row uf)
              (cfg.embed (buildContent row uf))).map VSEntry.embedding := by
          simp [addEmbedding, h]
        have ih := filter_new_rows_ignores_job_id cfg jobA jobB uf rest _ _ h2
        simp only [filter_new_rows, hc, if_neg hc, hdup, hd, if_neg hd]
        simp only [if_false]
        exact ⟨by simp [ih.1], ih.2.1, ih.2.2⟩

/-- Closed instance for the amended claim C7 theorem: equal embeddings
written by different jobs classify a batch identically. -/
theorem filter_new_rows_ignores_job_id_witness :
    (filter_new_rows exVS "A" [exRow 1] ["id"]
        [{ job_id := "A", content := "c1", embedding := "id:1" }]).1 =
      (filter_new_rows exVS "B" [exRow 1] ["id"]
        [{ job_id := "B", content := "c2", embedding := "id:1" }]).1 ∧
    (filter_new_rows exVS "A" [exRow 1] ["id"]
        [{ job_id := "A", content := "c1", embedding := "id:1" }]).2.1 =
      (filter_new_rows exVS "B" [exRow 1] ["id"]
        [{ job_id := "B", content := "c2", embedding := "id:1" }]).2.1 ∧
    (filter_new_rows exVS "A" [exRow 1] ["id"]
        [{ job_id := "A", content := "c1", embedding := "id:1" }]).2.2.map
        VSEntry.embedding =
      (filter_new_rows exVS "B" [exRow 1] ["id"]
        [{ job_id := "B", content := "c2", embedding := "id:1" }]).2.2.map
        VSEntry.embedding :=
  filter_new_rows_ignores_job_id exVS "A" "B" ["id"] [exRow 1] _ _ (by decide)

/-- Claim C8: a row whose canonical content is non-empty and which the
first filter_new_rows call accepts is classified as a duplicate by the
second call with the same content and unique fields: its own embedding is
now in the index at distance zero, which is at most the threshold. -/
theorem filter_same_row_twice_second_duplicate {V : Type} (cfg : VSConfig V)
    (jobId : String) (row : Row) (uf : List String)
    (entries : List (VSEntry V))
    (hdist : ∀ v, cfg.dist v v = 0)
    (hthr : 0 ≤ cfg.similarity_threshold)
    (hcontent : buildContent row uf ≠ "")
    (hfirst : (filter_new_rows cfg jobId [row] uf entries).1 = [row]) :
    (filter_new_rows cfg jobId [row] uf entries).2.1 = [] ∧
    (filter_new_rows cfg jobId [row] uf
        ((filter_new_rows cfg jobId [row] uf entries).2.2)).1 = [] ∧
    (filter_new_rows cfg jobId [row] uf
        ((filter_new_rows cfg jobId [row] uf entries).2.2)).2.1 = [row] := by
  by_cases hdup : isDuplicate cfg entries (cfg.embed (buildContent row uf)) = true
  · exfalso
    simp [filter_new_rows, hcontent, hdup] at hfirst
  · have h1 : filter_new_rows cfg jobId [row] uf entries =
        ([row], [],
          addEmbedding entries jobId (buildContent row uf)
            (cfg.embed (buildContent row uf))) := by
      simp [filter_new_rows, hcontent, hdup]
    obtain ⟨d, hd, hle⟩ :=
      nearestDistance_append_le cfg (cfg.embed (buildContent row uf))
        { job_id := jobId, content := buildContent row uf,
          embedding := cfg.embed (buildContent row uf) } entries
    have hdup2 : isDuplicate cfg
        (addEmbedding entries jobId (buildContent row uf)
          (cfg.embed (buildContent row uf)))
        (cfg.embed (buildContent row uf)) = true := by
      unfold isDuplicate addEmbedding
      rw [hd]
      simp only [decide_eq_true_eq]
      exact le_trans (by simpa [hdist] using hle) hthr
    rw [h1]
    simp [filter_new_rows, hcontent, hdup2]

/-- Closed instance of the claim C8 theorem: the concrete store accepts an
id row once and rejects its repetition. -/
theorem filter_same_row_twice_second_duplicate_witness :
    (filter_new_rows exVS "J" [exRow 1] ["id"] []).2.1 = [] ∧
    (filter_new_rows exVS "J" [exRow 1] ["id"]
        ((filter_new_rows exVS "J" [exRow 1] ["id"] []).2.2)).1 = [] ∧
    (filter_new_rows exVS "J" [exRow 1] ["id"]
        ((filter_new_rows exVS "J" [exRow 1] ["id"] []).2.2)).2.1 = [exRow 1] :=
  filter_same_row_twice_second_duplicate exVS "J" (exRow 1) ["id"] []
    (fun v => by simp [exVS]) (by norm_num [exVS]) (by decide) (by decide)

/-- Claim C1 counterexample: primary signals quota on chunk 1 (fallback
then serves that request), yet the very first attempt of chunk 2 calls
primary again: use_fallback_only is a local of generate_chunk and resets
at every chunk, so the fallback choice is not sticky across the job. -/
theorem quota_fallback_reset_across_chunks :
    (run_job c1Cfg c1St noIntervention 0).2.events =
      [{ chunkId := 1, caller := .primary, statusAtCall := .generating,
         quotaRaised := true },
       { chunkId := 1, caller := .fallback, statusAtCall := .generating,
         quotaRaised := false },
       { chunkId := 2, caller := .primary, statusAtCall := .generating,
         quotaRaised := false }] := by
  decide

/-- Claim C2: on an existing job that is not COMPLETED, with a fresh
chunk_id and rows still to generate, generate_chunk reaches the
self.job_manager.set_current_chunk call, a method the JobManager class
never defines, so it raises AttributeError with no generator called and
nothing stored: the trace and the disk are untouched. -/
theorem generate_chunk_missing_set_current_chunk {V : Type}
    (cfg : PipeConfig V) (st : PipeState V) (chunk_id now : Nat)
    (hcfg : cfg.hasSetCurrentChunk =
      JobManager.methodNames.contains "set_current_chunk")
    (hstatus : st.job.progress.status ≠ .completed)
    (hchunk : st.job.chunks.any (fun c => c.chunk_id = chunk_id) = false)
    (hrem : st.job.progress.rows_generated < st.job.specification.total_rows) :
    "set_current_chunk" ∉ JobManager.methodNames ∧
    (generate_chunk cfg st chunk_id now).1 = .error .attributeError ∧
    (generate_chunk cfg st chunk_id now).2.events = st.events ∧
    (generate_chunk cfg st chunk_id now).2.disk = st.disk := by
  have hmem : "set_current_chunk" ∉ JobManager.methodNames := by decide
  have hb : cfg.hasSetCurrentChunk = false := by rw [hcfg]; decide
  have hrem2 : ¬ ((st.job.specification.total_rows : Int) -
      (st.job.progress.rows_generated : Int) ≤ 0) := by omega
  refine ⟨hmem, ?_, ?_, ?_⟩ <;>
    simp [generate_chunk, hstatus, hchunk, hb, hrem2]

/-- Closed instance of the claim C2 theorem: a fresh pending job under the
method set job_manager.py really defines. -/
theorem generate_chunk_missing_set_current_chunk_witness :
    "set_current_chunk" ∉ JobManager.methodNames ∧
    (generate_chunk c2Cfg c2St 1 0).1 = .error .attributeError ∧
    (generate_chunk c2Cfg c2St 1 0).2.events = c2St.events ∧
    (generate_chunk c2Cfg c2St 1 0).2.disk = c2St.disk :=
  generate_chunk_missing_set_current_chunk c2Cfg c2St 1 0 rfl
    (by decide) (by decide) (by decide)

/-- Claim C3 counterexample: with the vector store dropping one duplicate
row in chunk 2, the chunks_completed condition marks the job COMPLETED
with rows_generated three while total_rows is four. -/
theorem completed_with_rows_shortfall :
    (generate_chunk c3Cfg ((generate_chunk c3Cfg c3St 1 0).2) 2 0).2.job.progress.status
        = .completed ∧
    (generate_chunk c3Cfg ((generate_chunk c3Cfg c3St 1 0).2) 2 0).2.job.progress.rows_generated
        = 3 ∧
    c3Spec.total_rows = 4 := by decide

/-- Claim C4 counterexample: when a pause control action lands at the
boundary before chunk 2, run_job still generates chunk 2 while the status
is PAUSED: the loop re-reads the status but only aborts on CANCELLED,
there is no wait on PAUSED. -/
theorem run_job_generates_while_paused :
    ({ chunkId := 2, caller := .primary, statusAtCall := .paused,
       quotaRaised := false } : GenEvent) ∈
      (run_job c4Cfg c4St c4Pause 0).2.events := by decide

/-- Claim C9 counterexample: run_job invoked on a COMPLETED job whose
chunk file is missing surfaces the FileNotFoundError of the merge through
its catch-all handler and marks the job FAILED: the status does not remain
COMPLETED, and no distinct MergeFailed error kind exists. -/
theorem run_job_merge_missing_chunk_marks_failed :
    (run_job c9Cfg c9St noIntervention 0).1 =
      .error (.merge (.fileNotFound "L")) ∧
    (run_job c9Cfg c9St noIntervention 0).2.job.progress.status = .failed := by
  decide

/-- Claim C10 counterexample: a schema with a uuid field is not
reproducible under a seed: the two calls draw successive uuid4 values, so
the same seed yields different rows. -/
theorem fallback_uuid_not_seed_deterministic :
    (generate_data_chunk testRng wStream uuidSchema 1 [] (some 0) 0).fst ≠
      (generate_data_chunk testRng wStream uuidSchema 1 [] (some 0)
        (generate_data_chunk testRng wStream uuidSchema 1 [] (some 0) 0).snd).fst := by
  decide

theorem stickyEvents_append_fallback (l : List GenEvent) (e : GenEvent)
    (hs : stickyEvents l = true) (he : e.caller = .fallback) :
    stickyEvents (l ++ [e]) = true := by
  induction l with
  | nil => simp [stickyEvents, he]
  | cons x t ih =>
    simp only [stickyEvents, Bool.and_eq_true] at hs
    obtain ⟨hx, ht⟩ := hs
    simp only [List.cons_append, stickyEvents, Bool.and_eq_true]
    refine ⟨?_, ih ht⟩
    cases hq : x.quotaRaised with
    | false => simp [hq]
    | true =>
      rw [hq] at hx
      simp only [Bool.not_true, Bool.false_or] at hx ⊢
      simp [List.append_eq, List.all_append, hx, he]

theorem noQuota_sticky_append (l : List GenEvent) (e : GenEvent)
    (hq : noQuotaEvents l = true) : stickyEvents (l ++ [e]) = true := by
  induction l with
  | nil => simp [stickyEvents]
  | cons x t ih =>
    simp only [noQuotaEvents, List.all_cons, Bool.and_eq_true] at hq
    simp only [List.cons_append, stickyEvents, Bool.and_eq_true]
    exact ⟨by simp [hq.1], ih (by simp [noQuotaEvents, hq.2])⟩

theorem noQuota_append (l : List GenEvent) (e : GenEvent)
    (hq : noQuotaEvents l = true) (he : e.quotaRaised = false) :
    noQuotaEvents (l ++ [e]) = true := by
  simp only [noQuotaEvents, List.all_append] at hq ⊢
  simp [hq, he, List.all_cons, noQuotaEvents]

theorem attemptBatch_sticky {V : Type} (cfg : PipeConfig V) (chunkId : Nat)
    (status : JobStatus) (rows_needed : Nat) (ls : LoopSt V)
    (h1 : ls.useFallbackOnly = false → noQuotaEvents ls.events = true)
    (h2 : stickyEvents ls.events = true) :
    (((attemptBatch cfg chunkId status rows_needed ls).2).useFallbackOnly = false →
      noQuotaEvents ((attemptBatch cfg chunkId status rows_needed ls).2).events = true) ∧
    stickyEvents ((attemptBatch cfg chunkId status rows_needed ls).2).events = true := by
  unfold attemptBatch
  cases hf : ls.useFallbackOnly with
  | true =>
    simp only [hf, if_true]
    constructor
    · intro h; simp at h
    · exact stickyEvents_append_fallback _ _ h2 rfl
  | false =>
    have hnq := h1 hf
    simp only [hf]
    cases hp : cfg.gens.primary ls.primaryCalls rows_needed ls.existing with
    | ok batch =>
      simp only [Bool.false_eq_true, if_false]
      exact ⟨fun _ => noQuota_append _ _ hnq rfl, noQuota_sticky_append _ _ hnq⟩
    | err m =>
      simp only [Bool.false_eq_true, if_false]
      exact ⟨fun _ => noQuota_append _ _ hnq rfl, noQuota_sticky_append _ _ hnq⟩
    | quota =>
      simp only [Bool.false_eq_true, if_false]
      constructor
      · intro h; simp at h
      · exact stickyEvents_append_fallback _ _ (noQuota_sticky_append _ _ hnq) rfl

theorem chunkLoop_sticky {V : Type} (cfg : PipeConfig V) (chunkId : Nat)
    (status : JobStatus) (rowsThisChunk : Nat) (uf : List String) (jid : String) :
    ∀ (fuel : Nat) (ls : LoopSt V),
    (ls.useFallbackOnly = false → noQuotaEvents ls.events = true) →
    stickyEvents ls.events = true →
    stickyEvents ((chunkLoop cfg chunkId status rowsThisChunk uf jid fuel ls).1).events
      = true
  | 0, ls, _, h2 => h2
  | fuel + 1, ls, h1, h2 => by
    simp only [chunkLoop]
    split
    · exact h2
    · have hinv := attemptBatch_sticky cfg chunkId status
        (rowsThisChunk - ls.deduped.length) ls h1 h2
      rcases hab : attemptBatch cfg chunkId status
        (rowsThisChunk - ls.deduped.length) ls with ⟨r, ls1⟩
      rw [hab] at hinv
      cases r with
      | error m => simp only [hab]; exact hinv.2
      | ok batch =>
        simp only [hab]
        cases hvs : cfg.vectorStore with
        | none =>
          simp only []
          split
          · exact hinv.2
          · exact chunkLoop_sticky cfg chunkId status rowsThisChunk uf jid fuel _
              (fun h => hinv.1 h) hinv.2
        | some vs =>
          simp only []
          split
          · split
            · simp only [hvs, Option.isNone_some, Bool.false_eq_true, if_false]
              exact chunkLoop_sticky cfg chunkId status rowsThisChunk uf jid fuel _
                (fun h => hinv.1 h) hinv.2
            · exact chunkLoop_sticky cfg chunkId status rowsThisChunk uf jid fuel _
                (fun h => hinv.1 h) hinv.2
          · split
            · simp only [hvs, Option.isNone_some, Bool.false_eq_true, if_false]
              exact chunkLoop_sticky cfg chunkId status rowsThisChunk uf jid fuel _
                (fun h => hinv.1 h) hinv.2
            · exact chunkLoop_sticky cfg chunkId status rowsThisChunk uf jid fuel _
                (fun h => hinv.1 h) hinv.2

theorem finishChunk_events {V : Type} (st : PipeState V) (job : JobState)
    (chunk_id now : Nat) (lsm : LoopSt V × Option String) :
    ((finishChunk st job chunk_id now lsm).2).events = lsm.1.events := by
  unfold finishChunk
  rcases lsm with ⟨ls, errMsg⟩
  cases errMsg with
  | some m => rfl
  | none =>
    simp only []
    split
    · rfl
    · rfl

theorem runChunkLoop_sticky {V : Type} (cfg : PipeConfig V) (st : PipeState V)
    (job : JobState) (chunk_id rt : Nat) (hst : st.events = []) :
    stickyEvents ((runChunkLoop cfg st job chunk_id rt).1).events = true := by
  unfold runChunkLoop
  apply chunkLoop_sticky
  · intro _; rw [hst]; rfl
  · rw [hst]; rfl

/-- Claim C1 amended: the fallback switch is sticky only within a single
chunk: during one generate_chunk call, once a primary call raises quota,
every later generator call of that chunk (the same request included) goes
to the fallback generator; each new chunk then starts over with the
primary generator, as the counterexample shows. -/
theorem generate_chunk_sticky_fallback_within_chunk {V : Type} (cfg : PipeConfig V)
    (st : PipeState V) (chunk_id now : Nat) (hst : st.events = []) :
    stickyEvents ((generate_chunk cfg st chunk_id now).2.events) = true := by
  unfold generate_chunk
  split
  · rw [hst]; rfl
  · split
    · rw [hst]; rfl
    · split
      · simp only []; rw [hst]; rfl
      · split
        · split
          · rw [hst]; rfl
          · rw [finishChunk_events]
            exact runChunkLoop_sticky cfg st _ chunk_id _ hst
        · split
          · rw [hst]; rfl
          · rw [finishChunk_events]
            exact runChunkLoop_sticky cfg st _ chunk_id _ hst

/-- Closed instance of the amended claim C1 theorem on the concrete quota
run. -/
theorem generate_chunk_sticky_fallback_within_chunk_witness :
    stickyEvents ((generate_chunk c1Cfg c1St 1 0).2.events) = true :=
  generate_chunk_sticky_fallback_within_chunk c1Cfg c1St 1 0 rfl

theorem update_job_status_progress_status (job : JobState) (s : JobStatus)
    (err : Option String) (now : Nat) :
    (JobManager.update_job_status job s err now).progress.status = s := by
  simp only [JobManager.update_job_status]
  split_ifs <;> rfl

theorem attemptBatch_eventsP {V : Type} (P : GenEvent → Prop)
    (cfg : PipeConfig V) (chunkId : Nat) (status : JobStatus)
    (rows_needed : Nat) (ls : LoopSt V)
    (hls : ∀ e ∈ ls.events, P e)
    (hP : ∀ e : GenEvent, e.statusAtCall = status → P e) :
    ∀ e ∈ ((attemptBatch cfg chunkId status rows_needed ls).2).events, P e := by
  unfold attemptBatch
  cases hf : ls.useFallbackOnly with
  | true =>
    simp only [hf, if_true]
    intro e he
    rcases List.mem_append.mp he with h | h
    · exact hls e h
    · simp only [List.mem_singleton] at h
      subst h
      exact hP _ rfl
  | false =>
    simp only [hf]
    cases hp : cfg.gens.primary ls.primaryCalls rows_needed ls.existing with
    | ok batch =>
      simp only [Bool.false_eq_true, if_false]
      intro e he
      rcases List.mem_append.mp he with h | h
      · exact hls e h
      · simp only [List.mem_singleton] at h
        subst h
        exact hP _ rfl
    | err m =>
      simp only [Bool.false_eq_true, if_false]
      intro e he
      rcases List.mem_append.mp he with h | h
      · exact hls e h
      · simp only [List.mem_singleton] at h
        subst h
        exact hP _ rfl
    | quota =>
      simp only [Bool.false_eq_true, if_false]
      intro e he
      rcases List.mem_append.mp he with h | h
      · rcases List.mem_append.mp h with h2 | h2
        · exact hls e h2
        · simp only [List.mem_singleton] at h2
          subst h2
          exact hP _ rfl
      · simp only [List.mem_singleton] at h
        subst h
        exact hP _ rfl

theorem chunkLoop_eventsP {V : Type} (P : GenEvent → Prop) (cfg : PipeConfig V)
    (chunkId : Nat) (status : JobStatus) (rowsThisChunk : Nat)
    (uf : List String) (jid : String)
    (hP : ∀ e : GenEvent, e.statusAtCall = status → P e) :
    ∀ (fuel : Nat) (ls : LoopSt V), (∀ e ∈ ls.events, P e) →
    ∀ e ∈ ((chunkLoop cfg chunkId status rowsThisChunk uf jid fuel ls).1).events, P e
  | 0, ls, hls => hls
  | fuel + 1, ls, hls => by
    simp only [chunkLoop]
    split
    · exact hls
    · have hmid := attemptBatch_eventsP P cfg chunkId status
        (rowsThisChunk - ls.deduped.length) ls hls hP
      rcases hab : attemptBatch cfg chunkId status
        (rowsThisChunk - ls.deduped.length) ls with ⟨r, ls1⟩
      rw [hab] at hmid
      cases r with
      | error m => simp only [hab]; exact hmid
      | ok batch =>
        simp only [hab]
        cases hvs : cfg.vectorStore with
        | none =>
          simp only []
          split
          · exact hmid
          · exact chunkLoop_eventsP P cfg chunkId status rowsThisChunk uf jid hP fuel _ hmid
        | some vs =>
          simp only []
          split
          · split
            · simp only [hvs, Option.isNone_some, Bool.false_eq_true, if_false]
              exact chunkLoop_eventsP P cfg chunkId status rowsThisChunk uf jid hP fuel _ hmid
            · exact chunkLoop_eventsP P cfg chunkId status rowsThisChunk uf jid hP fuel _ hmid
          · split
            · simp only [hvs, Option.isNone_some, Bool.false_eq_true, if_false]
              exact chunkLoop_eventsP P cfg chunkId status rowsThisChunk uf jid hP fuel _ hmid
            · exact chunkLoop_eventsP P cfg chunkId status rowsThisChunk uf jid hP fuel _ hmid

theorem runChunkLoop_eventsP {V : Type} (P : GenEvent → Prop)
    (cfg : PipeConfig V) (st : PipeState V) (job : JobState)
    (chunk_id rt : Nat)
    (hst : ∀ e ∈ st.events, P e)
    (hP : ∀ e : GenEvent, e.statusAtCall = job.progress.status → P e) :
    ∀ e ∈ ((runChunkLoop cfg st job chunk_id rt).1).events, P e := by
  unfold runChunkLoop
  exact chunkLoop_eventsP P cfg chunk_id job.progress.status rt _ _ hP _ _ hst

theorem generate_chunk_eventsP {V : Type} (P : GenEvent → Prop)
    (cfg : PipeConfig V) (st : PipeState V) (chunk_id now : Nat)
    (hst : ∀ e ∈ st.events, P e)
    (hP : ∀ e : GenEvent,
      e.statusAtCall = .generating ∨ e.statusAtCall = st.job.progress.status → P e) :
    ∀ e ∈ ((generate_chunk cfg st chunk_id now).2).events, P e := by
  unfold generate_chunk
  split
  · exact hst
  · split
    · exact hst
    · split
      · exact hst
      · split
        · split
          · exact hst
          · rw [finishChunk_events]
            apply runChunkLoop_eventsP P cfg st _ chunk_id _ hst
            intro e he
            apply hP
            left
            rw [he]
            simp [JobManager.set_current_chunk, update_job_status_progress_status]
        · split
          · exact hst
          · rw [finishChunk_events]
            apply runChunkLoop_eventsP P cfg st _ chunk_id _ hst
            intro e he
            exact hP e (Or.inr he)

theorem runChunks_not_cancelled {V : Type} (cfg : PipeConfig V)
    (interventions : Nat → JobState → JobState) (now : Nat) :
    ∀ (l : List Nat) (st : PipeState V),
    (∀ e ∈ st.events, e.statusAtCall ≠ .cancelled) →
    ∀ e ∈ ((runChunks cfg interventions now l st).2).events,
      e.statusAtCall ≠ .cancelled
  | [], _, hst => hst
  | i :: rest, st, hst => by
    simp only [runChunks]
    split
    · exact hst
    · rename_i hcanc
      split
      · exact runChunks_not_cancelled cfg interventions now rest _ hst
      · have hgen := generate_chunk_eventsP (fun e => e.statusAtCall ≠ .cancelled)
          cfg { st with job := interventions i st.job } i now hst ?_
        · rcases hgc : generate_chunk cfg { st with job := interventions i st.job } i now
            with ⟨r, st2⟩
          rw [hgc] at hgen
          cases r with
          | error e0 => simp only [hgc]; exact hgen
          | ok resp =>
            simp only [hgc]
            exact runChunks_not_cancelled cfg interventions now rest _ hgen
        · intro e he
          rcases he with h | h
          · rw [h]; intro hc; cases hc
          · rw [h]; exact hcanc

theorem merge_job_dataset_events {V : Type} (st : PipeState V) (now : Nat) :
    ((merge_job_dataset st now).2).events = st.events := by
  simp only [merge_job_dataset]
  split
  · rfl
  · split <;> rfl

/-- Claim C4 amended: at each chunk boundary run_job re-reads the job
state but tests only for CANCELLED: a cancelled status aborts the run
before the chunk starts, so no generator call ever sees status CANCELLED;
PAUSED is never tested, and chunks keep being generated while the status
is PAUSED, as the counterexample shows. There is no waiting loop. -/
theorem run_job_no_chunk_while_cancelled {V : Type} (cfg : PipeConfig V)
    (st : PipeState V) (interventions : Nat → JobState → JobState) (now : Nat)
    (hst : st.events = []) :
    ∀ e ∈ ((run_job cfg st interventions now).2).events,
      e.statusAtCall ≠ .cancelled := by
  have hnil : ∀ (st2 : PipeState V), st2.events = [] →
      ∀ e ∈ st2.events, e.statusAtCall ≠ .cancelled := by
    intro st2 h e he
    rw [h] at he
    cases he
  unfold run_job
  split
  · exact hnil st hst
  · have hrc := runChunks_not_cancelled cfg interventions now
      (List.range (if st.job.progress.status = .pending ∨
          st.job.progress.status = .schema_validation ∨
          st.job.progress.status = .paused ∨
          st.job.progress.status = .failed then
            { st with job := JobManager.update_job_status st.job .generating none now }
          else st).job.progress.total_chunks |>.map (fun i => i + 1))
      (if st.job.progress.status = .pending ∨
          st.job.progress.status = .schema_validation ∨
          st.job.progress.status = .paused ∨
          st.job.progress.status = .failed then
            { st with job := JobManager.update_job_status st.job .generating none now }
          else st) ?hbase
    case hbase =>
      split <;> exact hnil _ hst
    · rcases hrc2 : runChunks cfg interventions now
          (List.range (if st.job.progress.status = .pending ∨
              st.job.progress.status = .schema_validation ∨
              st.job.progress.status = .paused ∨
              st.job.progress.status = .failed then
                { st with job := JobManager.update_job_status st.job .generating none now }
              else st).job.progress.total_chunks |>.map (fun i => i + 1))
          (if st.job.progress.status = .pending ∨
              st.job.progress.status = .schema_validation ∨
              st.job.progress.status = .paused ∨
              st.job.progress.status = .failed then
                { st with job := JobManager.update_job_status st.job .generating none now }
              else st) with ⟨r, st2⟩
      rw [hrc2] at hrc
      cases r with
      | error e0 => simp only [hrc2]; exact hrc
      | ok u =>
        simp only [hrc2]
        rcases hm : merge_job_dataset
            (if st2.job.progress.status ≠ .completed then
              { st2 with job := JobManager.update_job_status st2.job .completed none now }
            else st2) now with ⟨rm, st3⟩
        have hm2 : st3.events = st2.events := by
          have := merge_job_dataset_events
            (if st2.job.progress.status ≠ .completed then
              { st2 with job := JobManager.update_job_status st2.job .completed none now }
            else st2) now
          rw [hm] at this
          rw [this]
          split <;> rfl
        cases rm with
        | error e0 =>
          simp only [hm]
          intro e he
          rw [hm2] at he
          exact hrc e he
        | ok d =>
          simp only [hm]
          intro e he
          rw [hm2] at he
          exact hrc e he

/-- Closed instance of the amended claim C4 theorem: the event generated
during the paused run did not happen under a cancelled status. -/
theorem run_job_no_chunk_while_cancelled_witness :
    ({ chunkId := 2, caller := .primary, statusAtCall := .paused,
       quotaRaised := false } : GenEvent).statusAtCall ≠ .cancelled :=
  run_job_no_chunk_while_cancelled c4Cfg c4St c4Pause 0 rfl _ (by decide)

theorem mem_insertSorted {α : Type} (le : α → α → Bool) (a b : α) :
    ∀ l : List α, b ∈ insertSorted le a l ↔ b = a ∨ b ∈ l
  | [] => by simp [insertSorted]
  | x :: xs => by
    simp only [insertSorted]
    split
    · simp only [List.mem_cons, mem_insertSorted le a b xs]
      tauto
    · simp only [List.mem_cons]

theorem mem_insertionSort {α : Type} (le : α → α → Bool) (b : α) :
    ∀ l : List α, b ∈ insertionSort le l ↔ b ∈ l
  | [] => Iff.rfl
  | x :: xs => by
    simp [insertionSort, mem_insertSorted, mem_insertionSort le b xs]

theorem mergeRows_missing (disk : List (String × List Row)) :
    ∀ l : List ChunkMetadata,
    (∃ c ∈ l, disk_retrieve_chunk disk c = none) →
    ∃ loc, mergeRows disk l = .error (.fileNotFound loc)
  | [], h => by simp at h
  | c :: rest, h => by
    cases hret : disk_retrieve_chunk disk c with
    | none => exact ⟨c.storage_location, by simp [mergeRows, hret]⟩
    | some rows =>
      obtain ⟨x, hx, hmiss⟩ := h
      rcases List.mem_cons.mp hx with rfl | hx2
      · rw [hret] at hmiss
        cases hmiss
      · obtain ⟨loc, hl⟩ := mergeRows_missing disk rest ⟨x, hx2, hmiss⟩
        exact ⟨loc, by simp [mergeRows, hret, hl]⟩

/-- Claim C9 amended: a missing chunk file is fatal for the merge, which
aborts with the FileNotFoundError of the storage layer (there is no
distinct MergeFailed error type in the code); merge_job_dataset itself
leaves the COMPLETED job state untouched, but when the merge runs inside
run_job the catch-all handler overwrites the status with FAILED, as the
counterexample shows. -/
theorem merge_job_dataset_missing_chunk_aborts {V : Type} (st : PipeState V)
    (now : Nat)
    (hstatus : st.job.progress.status = .completed)
    (hmissing : ∃ c ∈ st.job.chunks, disk_retrieve_chunk st.disk c = none) :
    (∃ loc, (merge_job_dataset st now).1 = .error (.fileNotFound loc)) ∧
    (merge_job_dataset st now).2.job = st.job := by
  obtain ⟨c, hc, hm⟩ := hmissing
  obtain ⟨loc, hl⟩ := mergeRows_missing st.disk
    (insertionSort (fun a b => a.chunk_id ≤ b.chunk_id) st.job.chunks)
    ⟨c, (mem_insertionSort _ _ _).mpr hc, hm⟩
  constructor
  · exact ⟨loc, by
      simp [merge_job_dataset, hstatus, disk_merge_chunks, hl]⟩
  · simp [merge_job_dataset, hstatus, disk_merge_chunks, hl]

/-- Closed instance of the amended claim C9 theorem on the state whose
only chunk file is absent. -/
theorem merge_job_dataset_missing_chunk_aborts_witness :
    (∃ loc, (merge_job_dataset c9St 0).1 = .error (.fileNotFound loc)) ∧
    (merge_job_dataset c9St 0).2.job = c9St.job :=
  merge_job_dataset_missing_chunk_aborts c9St 0 (by decide)
    ⟨{ chunk_id := 1, job_id := 3, rows_generated := 1,
       storage_location := "L" }, by decide, by decide⟩

theorem filter_new_rows_acc_length {V : Type} (cfg : VSConfig V) (jid : String)
    (uf : List String) : ∀ (rows : List Row) (entries : List (VSEntry V)),
    ((filter_new_rows cfg jid rows uf entries).1).length ≤ rows.length
  | [], _ => by simp [filter_new_rows]
  | row :: rest, entries => by
    simp only [filter_new_rows]
    split
    · rcases h : filter_new_rows cfg jid rest uf entries with ⟨acc, dup, st2⟩
      have ih := filter_new_rows_acc_length cfg jid uf rest entries
      rw [h] at ih
      simp at ih
      simp only [h, List.length_cons]
      omega
    · split
      · rcases h : filter_new_rows cfg jid rest uf entries with ⟨acc, dup, st2⟩
        have ih := filter_new_rows_acc_length cfg jid uf rest entries
        rw [h] at ih
        simp at ih
        simp only [h, List.length_cons]
        omega
      · rcases h : filter_new_rows cfg jid rest uf
            (addEmbedding entries jid (buildContent row uf)
              (cfg.embed (buildContent row uf))) with ⟨acc, dup, st2⟩
        have ih := filter_new_rows_acc_length cfg jid uf rest
          (addEmbedding entries jid (buildContent row uf)
            (cfg.embed (buildContent row uf)))
        rw [h] at ih
        simp at ih
        simp only [h, List.length_cons]
        omega

theorem attemptBatch_length {V : Type} (cfg : PipeConfig V) (chunkId : Nat)
    (status : JobStatus) (rn : Nat) (ls : LoopSt V)
    (hb : BoundedGens cfg.gens) :
    ∀ (batch : List Row) (ls1 : LoopSt V),
    attemptBatch cfg chunkId status rn ls = (.ok batch, ls1) →
    batch.length ≤ rn := by
  unfold attemptBatch
  cases hf : ls.useFallbackOnly with
  | true =>
    simp only [hf, if_true]
    intro batch ls1 heq
    have h1 := congrArg Prod.fst heq
    simp only [Except.ok.injEq] at h1
    rw [← h1]
    exact hb.2 _ _ _
  | false =>
    simp only [hf]
    cases hp : cfg.gens.primary ls.primaryCalls rn ls.existing with
    | ok b =>
      simp only [Bool.false_eq_true, if_false]
      intro batch ls1 heq
      have h1 := congrArg Prod.fst heq
      simp only [Except.ok.injEq] at h1
      rw [← h1]
      exact hb.1 _ _ _ b hp
    | err m =>
      simp only [Bool.false_eq_true, if_false]
      intro batch ls1 heq
      have h1 := congrArg Prod.fst heq
      simp at h1
    | quota =>
      simp only [Bool.false_eq_true, if_false]
      intro batch ls1 heq
      have h1 := congrArg Prod.fst heq
      simp only [Except.ok.injEq] at h1
      rw [← h1]
      exact hb.2 _ _ _

theorem chunkLoop_deduped_le {V : Type} (cfg : PipeConfig V) (chunkId : Nat)
    (status : JobStatus) (rowsThisChunk : Nat) (uf : List String)
    (jid : String) (hb : BoundedGens cfg.gens) :
    ∀ (fuel : Nat) (ls : LoopSt V), ls.deduped.length ≤ rowsThisChunk →
    ((chunkLoop cfg chunkId status rowsThisChunk uf jid fuel ls).1).deduped.length
      ≤ rowsThisChunk
  | 0, ls, hlen => hlen
  | fuel + 1, ls, hlen => by
    simp only [chunkLoop]
    split
    · exact hlen
    · rename_i hshort
      rcases hab : attemptBatch cfg chunkId status
        (rowsThisChunk - ls.deduped.length) ls with ⟨r, ls1⟩
      have hls1 : ls1.deduped = ls.deduped := by
        have h2 := congrArg (fun p => (Prod.snd p).deduped) hab
        simp only at h2
        rw [← h2]
        unfold attemptBatch
        cases hf : ls.useFallbackOnly with
        | true => simp only [hf, if_true]
        | false =>
          simp only [hf]
          cases hp : cfg.gens.primary ls.primaryCalls
              (rowsThisChunk - ls.deduped.length) ls.existing <;>
            simp only [Bool.false_eq_true, if_false]
      cases r with
      | error m =>
        simp only [hab]
        rw [hls1]
        exact hlen
      | ok batch =>
        have hblen := attemptBatch_length cfg chunkId status
          (rowsThisChunk - ls.deduped.length) ls hb batch ls1 hab
        simp only [hab]
        cases hvs : cfg.vectorStore with
        | none =>
          simp only [Option.isNone_none]
          split
          · simp only [if_true]
            rw [hls1]
            exact hlen
          · apply chunkLoop_deduped_le cfg chunkId status rowsThisChunk uf jid hb fuel
            simp only [List.length_append, hls1]
            omega
        | some vs =>
          rcases hfr : filter_new_rows vs jid batch uf ls1.entries with ⟨acc, dup, ent⟩
          have hfl := filter_new_rows_acc_length vs jid uf batch ls1.entries
          rw [hfr] at hfl
          simp only at hfl
          simp only [hfr]
          split
          · split
            · simp only [hvs, Option.isNone_some, Bool.false_eq_true, if_false]
              apply chunkLoop_deduped_le cfg chunkId status rowsThisChunk uf jid hb fuel
              simp only [hls1]
              exact hlen
            · apply chunkLoop_deduped_le cfg chunkId status rowsThisChunk uf jid hb fuel
              simp only [List.length_append, hls1]
              omega
          · split
            · simp only [hvs, Option.isNone_some, Bool.false_eq_true, if_false]
              apply chunkLoop_deduped_le cfg chunkId status rowsThisChunk uf jid hb fuel
              simp only [hls1]
              exact hlen
            · apply chunkLoop_deduped_le cfg chunkId status rowsThisChunk uf jid hb fuel
              simp only [List.length_append, hls1]
              omega

theorem runChunkLoop_deduped_le {V : Type} (cfg : PipeConfig V)
    (st : PipeState V) (job : JobState) (chunk_id rt : Nat)
    (hb : BoundedGens cfg.gens) :
    ((runChunkLoop cfg st job chunk_id rt).1).deduped.length ≤ rt := by
  unfold runChunkLoop
  refine chunkLoop_deduped_le cfg chunk_id job.progress.status rt _ _ hb _ _ ?_
  simp

theorem up_rows (p : JobProgress) :
    p.update_progress.rows_generated = p.rows_generated := by
  simp only [JobProgress.update_progress]; split <;> rfl

theorem up_chunks (p : JobProgress) :
    p.update_progress.chunks_completed = p.chunks_completed := by
  simp only [JobProgress.update_progress]; split <;> rfl

theorem up_total (p : JobProgress) :
    p.update_progress.total_chunks = p.total_chunks := by
  simp only [JobProgress.update_progress]; split <;> rfl

theorem up_status (p : JobProgress) :
    p.update_progress.status = p.status := by
  simp only [JobProgress.update_progress]; split <;> rfl

theorem ujs_rows (job : JobState) (s : JobStatus) (e : Option String) (n : Nat) :
    (JobManager.update_job_status job s e n).progress.rows_generated =
      job.progress.rows_generated := by
  simp only [JobManager.update_job_status]; split_ifs <;> rfl

theorem ujs_chunks (job : JobState) (s : JobStatus) (e : Option String) (n : Nat) :
    (JobManager.update_job_status job s e n).progress.chunks_completed =
      job.progress.chunks_completed := by
  simp only [JobManager.update_job_status]; split_ifs <;> rfl

theorem ujs_total (job : JobState) (s : JobStatus) (e : Option String) (n : Nat) :
    (JobManager.update_job_status job s e n).progress.total_chunks =
      job.progress.total_chunks := by
  simp only [JobManager.update_job_status]; split_ifs <;> rfl

theorem ujs_spec (job : JobState) (s : JobStatus) (e : Option String) (n : Nat) :
    (JobManager.update_job_status job s e n).specification = job.specification := rfl

theorem scc_rows (job : JobState) (c : Option Nat) :
    (JobManager.set_current_chunk job c).progress.rows_generated =
      job.progress.rows_generated := rfl

theorem scc_chunks (job : JobState) (c : Option Nat) :
    (JobManager.set_current_chunk job c).progress.chunks_completed =
      job.progress.chunks_completed := rfl

theorem scc_total (job : JobState) (c : Option Nat) :
    (JobManager.set_current_chunk job c).progress.total_chunks =
      job.progress.total_chunks := rfl

theorem scc_status (job : JobState) (c : Option Nat) :
    (JobManager.set_current_chunk job c).progress.status =
      job.progress.status := rfl

theorem scc_spec (job : JobState) (c : Option Nat) :
    (JobManager.set_current_chunk job c).specification = job.specification := rfl

theorem addc_rows (job : JobState) (ch : ChunkMetadata) :
    (JobManager.add_chunk job ch).progress.rows_generated =
      job.progress.rows_generated + ch.rows_generated := by
  simp only [JobManager.add_chunk, JobState.addChunk, up_rows]

theorem addc_chunks (job : JobState) (ch : ChunkMetadata) :
    (JobManager.add_chunk job ch).progress.chunks_completed =
      job.progress.chunks_completed + 1 := by
  simp only [JobManager.add_chunk, JobState.addChunk, up_chunks]

theorem addc_total (job : JobState) (ch : ChunkMetadata) :
    (JobManager.add_chunk job ch).progress.total_chunks =
      job.progress.total_chunks := by
  simp only [JobManager.add_chunk, JobState.addChunk, up_total]

theorem addc_status (job : JobState) (ch : ChunkMetadata) :
    (JobManager.add_chunk job ch).progress.status = job.progress.status := by
  simp only [JobManager.add_chunk, JobState.addChunk, up_status]

theorem addc_spec (job : JobState) (ch : ChunkMetadata) :
    (JobManager.add_chunk job ch).specification = job.specification := by
  simp only [JobManager.add_chunk, JobState.addChunk]

theorem finishChunk_runChunkLoop_bound {V : Type} (cfg : PipeConfig V)
    (st : PipeState V) (job : JobState) (chunk_id now rt : Nat)
    (hb : BoundedGens cfg.gens)
    (hjc : job.specification = st.job.specification)
    (hjr : job.progress.rows_generated = st.job.progress.rows_generated)
    (hjs : job.progress.status ≠ .completed)
    (hrt : st.job.progress.rows_generated + rt ≤ st.job.specification.total_rows) :
    ((finishChunk st job chunk_id now
        (runChunkLoop cfg st job chunk_id rt)).2.job.progress.rows_generated ≤
      st.job.specification.total_rows) ∧
    ((finishChunk st job chunk_id now
        (runChunkLoop cfg st job chunk_id rt)).2.job.progress.status = .completed →
      (finishChunk st job chunk_id now
        (runChunkLoop cfg st job chunk_id rt)).2.job.progress.total_chunks ≤
        (finishChunk st job chunk_id now
          (runChunkLoop cfg st job chunk_id rt)).2.job.progress.chunks_completed ∨
      (finishChunk st job chunk_id now
        (runChunkLoop cfg st job chunk_id rt)).2.job.progress.rows_generated =
        st.job.specification.total_rows) := by
  have hlenall := runChunkLoop_deduped_le cfg st job chunk_id rt hb
  rcases hr : runChunkLoop cfg st job chunk_id rt with ⟨ls, errMsg⟩
  rw [hr] at hlenall
  simp only at hlenall
  unfold finishChunk
  cases errMsg with
  | some m =>
    constructor
    · simp only [ujs_rows, hjr]
      omega
    · intro hc
      rw [update_job_status_progress_status] at hc
      cases hc
  | none =>
    simp only []
    split
    · constructor
      · simp only [ujs_rows, hjr]
        omega
      · intro hc
        rw [update_job_status_progress_status] at hc
        cases hc
    · generalize hmeta : (disk_store_chunk (st.disk) job.specification.job_id chunk_id
          ls.deduped).2 = meta
      have hmr : meta.rows_generated = ls.deduped.length := by
        rw [← hmeta]; rfl
      generalize hj4 : JobManager.set_current_chunk (JobManager.add_chunk job meta)
          none = j4
      have h4r : j4.progress.rows_generated =
          job.progress.rows_generated + ls.deduped.length := by
        rw [← hj4, scc_rows, addc_rows, hmr]
      have h4c : j4.progress.chunks_completed = job.progress.chunks_completed + 1 := by
        rw [← hj4, scc_chunks, addc_chunks]
      have h4t : j4.progress.total_chunks = job.progress.total_chunks := by
        rw [← hj4, scc_total, addc_total]
      have h4s : j4.progress.status = job.progress.status := by
        rw [← hj4, scc_status, addc_status]
      have h4sp : j4.specification = job.specification := by
        rw [← hj4, scc_spec, addc_spec]
      dsimp only
      split
      · rename_i hcond
        constructor
        · simp only [ujs_rows, h4r, hjr]
          omega
        · intro _
          rcases hcond with hcl | hcr
          · left
            simp only [ujs_total, ujs_chunks]
            exact hcl
          · right
            rw [h4sp, hjc] at hcr
            simp only [ujs_rows, h4r, hjr]
            omega
      · constructor
        · simp only [h4r, hjr]
          omega
        · intro hc
          rw [h4s] at hc
          exact absurd hc hjs

/-- Claim C3 amended: on the generation path, rows_generated never
exceeds total_rows (generators return at most the requested rows and the
filter only drops), and whenever generate_chunk marks the job COMPLETED,
either all chunks are completed or rows_generated equals total_rows; the
chunk-count disjunct can fire with rows_generated strictly below
total_rows when the deduplicator dropped rows, as the counterexample
shows, so equality is not guaranteed. -/
theorem generate_chunk_completion_bound {V : Type} (cfg : PipeConfig V)
    (st : PipeState V) (chunk_id now : Nat)
    (hb : BoundedGens cfg.gens)
    (hrows : st.job.progress.rows_generated ≤ st.job.specification.total_rows)
    (hstatus : st.job.progress.status ≠ .completed) :
    ((generate_chunk cfg st chunk_id now).2).job.progress.rows_generated ≤
      st.job.specification.total_rows ∧
    (((generate_chunk cfg st chunk_id now).2).job.progress.status = .completed →
      ((generate_chunk cfg st chunk_id now).2).job.progress.total_chunks ≤
        ((generate_chunk cfg st chunk_id now).2).job.progress.chunks_completed ∨
      ((generate_chunk cfg st chunk_id now).2).job.progress.rows_generated =
        st.job.specification.total_rows) := by
  unfold generate_chunk
  split
  · rename_i h; exact absurd h hstatus
  · split
    · exact ⟨hrows, fun hc => absurd hc hstatus⟩
    · split
      · rename_i hrem
        constructor
        · dsimp only
          rw [ujs_rows]
          exact hrows
        · intro _
          right
          dsimp only
          rw [ujs_rows]
          omega
      · rename_i hrem
        split
        · split
          · constructor
            · dsimp only
              rw [ujs_rows]
              exact hrows
            · intro hc
              dsimp only at hc
              rw [update_job_status_progress_status] at hc
              cases hc
          · rename_i hpend _
            apply finishChunk_runChunkLoop_bound cfg st _ chunk_id now _ hb
            · rw [scc_spec, ujs_spec]
            · rw [scc_rows, ujs_rows]
            · rw [scc_status, update_job_status_progress_status]
              intro hc
              cases hc
            · have h1 : min st.job.specification.chunk_size
                  ((st.job.specification.total_rows : Int) -
                    (st.job.progress.rows_generated : Int)).toNat ≤
                  ((st.job.specification.total_rows : Int) -
                    (st.job.progress.rows_generated : Int)).toNat :=
                min_le_right _ _
              omega
        · split
          · constructor
            · exact hrows
            · intro hc
              dsimp only at hc
              exact absurd hc hstatus
          · apply finishChunk_runChunkLoop_bound cfg st _ chunk_id now _ hb
            · rw [scc_spec]
            · rw [scc_rows]
            · rw [scc_status]
              exact hstatus
            · have h1 : min st.job.specification.chunk_size
                  ((st.job.specification.total_rows : Int) -
                    (st.job.progress.rows_generated : Int)).toNat ≤
                  ((st.job.specification.total_rows : Int) -
                    (st.job.progress.rows_generated : Int)).toNat :=
                min_le_right _ _
              omega

/-- Closed instance of the amended claim C3 theorem on a fresh two-chunk
job with generators that always deliver the requested rows. -/
theorem generate_chunk_completion_bound_witness :
    ((generate_chunk c4Cfg c4St 1 0).2).job.progress.rows_generated ≤
      c4St.job.specification.total_rows ∧
    (((generate_chunk c4Cfg c4St 1 0).2).job.progress.status = .completed →
      ((generate_chunk c4Cfg c4St 1 0).2).job.progress.total_chunks ≤
        ((generate_chunk c4Cfg c4St 1 0).2).job.progress.chunks_completed ∨
      ((generate_chunk c4Cfg c4St 1 0).2).job.progress.rows_generated =
        c4St.job.specification.total_rows) :=
  generate_chunk_completion_bound c4Cfg c4St 1 0
    ⟨fun i n ex rows h => by
        simp only [c4Cfg, okGens] at h
        cases h
        simp [constRows],
      fun i n ex => by simp [c4Cfg, okGens, constRows]⟩
    (by decide) (by decide)

theorem fbGenerateValue_indep (impl : RngImpl) (f : FieldDefinition)
    (h1 : f.type ≠ .uuid) (h2 : f.type ≠ .date) (h3 : f.type ≠ .datetime)
    (r : impl.R) (i : Int) :
    ∃ (v : PyValue) (r2 : impl.R), ∀ (w : World) (c : Nat),
      fbGenerateValue impl w f { rng := r, uuidCtr := c } i =
        (v, { rng := r2, uuidCtr := c }) := by
  cases ht : f.type with
  | uuid => exact absurd ht h1
  | date => exact absurd ht h2
  | datetime => exact absurd ht h3
  | string =>
    exact ⟨fbGenerateString f i, r, fun w c => by simp [fbGenerateValue, ht]⟩
  | integer =>
    rcases hg : fbGenerateInteger impl f r with ⟨n, r2⟩
    exact ⟨.int n, r2, fun w c => by simp [fbGenerateValue, ht, hg]⟩
  | float =>
    rcases hg : impl.uniform r 0 500 with ⟨u, r2⟩
    exact ⟨.rat (round2 u), r2, fun w c => by simp [fbGenerateValue, ht, hg]⟩
  | boolean =>
    rcases hg : impl.choice r [true, false] true with ⟨b, r2⟩
    exact ⟨.bool b, r2, fun w c => by simp [fbGenerateValue, ht, hg]⟩
  | email =>
    rcases hg : impl.randint r 1 9999 with ⟨k, r2⟩
    exact ⟨.str ("user" ++ toString (i + k) ++ "@example.com"), r2,
      fun w c => by simp [fbGenerateValue, ht, hg]⟩
  | phone =>
    rcases hg : impl.randint r 100 999 with ⟨a, r2⟩
    rcases hg2 : impl.randint r2 1000 9999 with ⟨b, r3⟩
    exact ⟨.str ("+1-555-" ++ toString a ++ "-" ++ toString b), r3,
      fun w c => by simp [fbGenerateValue, ht, hg, hg2]⟩
  | enum =>
    cases he : f.constraints.enum_values with
    | some l =>
      cases l with
      | cons v vs =>
        rcases hg : impl.choice r (v :: vs) "" with ⟨s, r2⟩
        exact ⟨.str s, r2, fun w c => by simp [fbGenerateValue, ht, he, hg]⟩
      | nil =>
        by_cases hs : f.sample_values ≠ []
        · rcases hg : impl.choice r f.sample_values (.str "") with ⟨v2, r2⟩
          exact ⟨v2, r2, fun w c => by simp [fbGenerateValue, ht, he, hs, hg]⟩
        · rcases hg : impl.randint r 1 100 with ⟨n, r2⟩
          exact ⟨.int n, r2, fun w c => by simp [fbGenerateValue, ht, he, hs, hg]⟩
    | none =>
      by_cases hs : f.sample_values ≠ []
      · rcases hg : impl.choice r f.sample_values (.str "") with ⟨v2, r2⟩
        exact ⟨v2, r2, fun w c => by simp [fbGenerateValue, ht, he, hs, hg]⟩
      · rcases hg : impl.randint r 1 100 with ⟨n, r2⟩
        exact ⟨.int n, r2, fun w c => by simp [fbGenerateValue, ht, he, hs, hg]⟩
  | json =>
    cases he : f.constraints.enum_values with
    | some l =>
      cases l with
      | cons v vs =>
        rcases hg : impl.choice r (v :: vs) "" with ⟨s, r2⟩
        exact ⟨.str s, r2, fun w c => by simp [fbGenerateValue, ht, he, hg]⟩
      | nil =>
        by_cases hs : f.sample_values ≠ []
        · rcases hg : impl.choice r f.sample_values (.str "") with ⟨v2, r2⟩
          exact ⟨v2, r2, fun w c => by simp [fbGenerateValue, ht, he, hs, hg]⟩
        · rcases hg : impl.randint r 1 100 with ⟨n, r2⟩
          exact ⟨.int n, r2, fun w c => by simp [fbGenerateValue, ht, he, hs, hg]⟩
    | none =>
      by_cases hs : f.sample_values ≠ []
      · rcases hg : impl.choice r f.sample_values (.str "") with ⟨v2, r2⟩
        exact ⟨v2, r2, fun w c => by simp [fbGenerateValue, ht, he, hs, hg]⟩
      · rcases hg : impl.randint r 1 100 with ⟨n, r2⟩
        exact ⟨.int n, r2, fun w c => by simp [fbGenerateValue, ht, he, hs, hg]⟩
  | array =>
    cases he : f.constraints.enum_values with
    | some l =>
      cases l with
      | cons v vs =>
        rcases hg : impl.choice r (v :: vs) "" with ⟨s, r2⟩
        exact ⟨.str s, r2, fun w c => by simp [fbGenerateValue, ht, he, hg]⟩
      | nil =>
        by_cases hs : f.sample_values ≠ []
        · rcases hg : impl.choice r f.sample_values (.str "") with ⟨v2, r2⟩
          exact ⟨v2, r2, fun w c => by simp [fbGenerateValue, ht, he, hs, hg]⟩
        · rcases hg : impl.randint r 1 100 with ⟨n, r2⟩
          exact ⟨.int n, r2, fun w c => by simp [fbGenerateValue, ht, he, hs, hg]⟩
    | none =>
      by_cases hs : f.sample_values ≠ []
      · rcases hg : impl.choice r f.sample_values (.str "") with ⟨v2, r2⟩
        exact ⟨v2, r2, fun w c => by simp [fbGenerateValue, ht, he, hs, hg]⟩
      · rcases hg : impl.randint r 1 100 with ⟨n, r2⟩
        exact ⟨.int n, r2, fun w c => by simp [fbGenerateValue, ht, he, hs, hg]⟩

theorem fbMakeUniqueValue_indep (impl : RngImpl) (f : FieldDefinition)
    (h1 : f.type ≠ .uuid) (r : impl.R) (i : Int) :
    ∃ (v : PyValue) (r2 : impl.R), ∀ (w : World) (c : Nat),
      fbMakeUniqueValue impl w f { rng := r, uuidCtr := c } i =
        (v, { rng := r2, uuidCtr := c }) := by
  cases ht : f.type with
  | uuid => exact absurd ht h1
  | string =>
    rcases hg : impl.randint r 100 999 with ⟨k, r2⟩
    exact ⟨.str (pyTitle f.name ++ " " ++ toString (i + k)), r2,
      fun w c => by simp [fbMakeUniqueValue, ht, hg]⟩
  | integer =>
    rcases hg : impl.randint r 1 50 with ⟨k, r2⟩
    refine ⟨.int ((match f.constraints.max_value with
      | some q => if q = 0 then 1000 else pyInt q
      | none => 1000) + i + k), r2, fun w c => ?_⟩
    simp [fbMakeUniqueValue, ht, hg]
  | float =>
    rcases hg : impl.uniform r 1 10 with ⟨u, r2⟩
    refine ⟨.rat (round2 ((match f.constraints.max_value with
      | some q => if q = 0 then 1000 else q
      | none => 1000) + u + i)), r2, fun w c => ?_⟩
    simp [fbMakeUniqueValue, ht, hg]
  | email =>
    rcases hg : impl.randint r 1000 9999 with ⟨k, r2⟩
    exact ⟨.str ("user" ++ toString (i + k) ++ "@example.com"), r2,
      fun w c => by simp [fbMakeUniqueValue, ht, hg]⟩
  | phone =>
    rcases hg : impl.randint r 200 998 with ⟨a, r2⟩
    rcases hg2 : impl.randint r2 1000 9999 with ⟨b, r3⟩
    exact ⟨.str ("+1-555-" ++ toString a ++ "-" ++ toString b), r3,
      fun w c => by simp [fbMakeUniqueValue, ht, hg, hg2]⟩
  | boolean =>
    rcases hg : impl.randint r 1 10000 with ⟨n, r2⟩
    exact ⟨.int n, r2, fun w c => by simp [fbMakeUniqueValue, ht, hg]⟩
  | date =>
    rcases hg : impl.randint r 1 10000 with ⟨n, r2⟩
    exact ⟨.int n, r2, fun w c => by simp [fbMakeUniqueValue, ht, hg]⟩
  | datetime =>
    rcases hg : impl.randint r 1 10000 with ⟨n, r2⟩
    exact ⟨.int n, r2, fun w c => by simp [fbMakeUniqueValue, ht, hg]⟩
  | enum =>
    rcases hg : impl.randint r 1 10000 with ⟨n, r2⟩
    exact ⟨.int n, r2, fun w c => by simp [fbMakeUniqueValue, ht, hg]⟩
  | json =>
    rcases hg : impl.randint r 1 10000 with ⟨n, r2⟩
    exact ⟨.int n, r2, fun w c => by simp [fbMakeUniqueValue, ht, hg]⟩
  | array =>
    rcases hg : impl.randint r 1 10000 with ⟨n, r2⟩
    exact ⟨.int n, r2, fun w c => by simp [fbMakeUniqueValue, ht, hg]⟩

theorem fbUniqueRetry_indep (impl : RngImpl) (f : FieldDefinition)
    (h1 : f.type ≠ .uuid) (h2 : f.type ≠ .date) (h3 : f.type ≠ .datetime)
    (seen : List PyValue) (index : Int) :
    ∀ (fuel : Nat) (attempts : Int) (v : PyValue) (r : impl.R),
    ∃ (v2 : PyValue) (r2 : impl.R) (att2 : Int), ∀ (w : World) (c : Nat),
      fbUniqueRetry impl w f seen index fuel attempts v { rng := r, uuidCtr := c } =
        (v2, { rng := r2, uuidCtr := c }, att2)
  | 0, attempts, v, r => ⟨v, r, attempts, fun w c => rfl⟩
  | fuel + 1, attempts, v, r => by
    by_cases hv : seen.contains v
    · obtain ⟨v1, r1, hgen⟩ :=
        fbGenerateValue_indep impl f h1 h2 h3 r (index + attempts + 1)
      obtain ⟨v2, r2, att2, hrec⟩ :=
        fbUniqueRetry_indep impl f h1 h2 h3 seen index fuel (attempts + 1) v1 r1
      exact ⟨v2, r2, att2, fun w c => by
        simp only [fbUniqueRetry, hv, if_true, hgen w c, hrec w c]⟩
    · exact ⟨v, r, attempts, fun w c => by
        simp only [fbUniqueRetry, hv, Bool.false_eq_true, if_false]⟩

theorem fbGenerateField_indep (impl : RngImpl) (f : FieldDefinition)
    (h1 : f.type ≠ .uuid) (h2 : f.type ≠ .date) (h3 : f.type ≠ .datetime)
    (sets : SeenSets) (r : impl.R) (i : Int) :
    ∃ (v : PyValue) (sets2 : SeenSets) (r2 : impl.R), ∀ (w : World) (c : Nat),
      fbGenerateField impl w f sets { rng := r, uuidCtr := c } i =
        (v, sets2, { rng := r2, uuidCtr := c }) := by
  obtain ⟨v0, r0, hgen⟩ := fbGenerateValue_indep impl f h1 h2 h3 r i
  by_cases hu : (f.constraints.unique || sets.hasKey f.name) = true
  · obtain ⟨v1, r1, att1, hretry⟩ :=
      fbUniqueRetry_indep impl f h1 h2 h3
        (match (sets.ensure f.name).find? (fun kv => kv.fst = f.name) with
         | some kv => kv.snd
         | none => []) i 20 0 v0 r0
    by_cases hseen : (match (sets.ensure f.name).find?
        (fun kv : String × List PyValue => kv.fst = f.name) with
        | some kv => kv.snd
        | none => []).contains v1 = true
    · obtain ⟨v3, r3, hmk⟩ := fbMakeUniqueValue_indep impl f h1 r1 (i + att1 + 1)
      refine ⟨v3, (sets.ensure f.name).add f.name v3, r3, fun w c => ?_⟩
      simp only [fbGenerateField, hu, if_true, hgen w c, hretry w c, hseen,
        hmk w c]
    · refine ⟨v1, (sets.ensure f.name).add f.name v1, r1, fun w c => ?_⟩
      simp only [fbGenerateField, hu, if_true, hgen w c, hretry w c, hseen,
        Bool.false_eq_true, if_false]
  · refine ⟨v0, sets, r0, fun w c => ?_⟩
    simp only [fbGenerateField, hu, Bool.false_eq_true, if_false, hgen w c]

theorem fbGenerateRow_indep (impl : RngImpl) :
    ∀ (fields : List FieldDefinition),
    (∀ f ∈ fields, f.type ≠ .uuid ∧ f.type ≠ .date ∧ f.type ≠ .datetime) →
    ∀ (sets : SeenSets) (r : impl.R) (i : Int),
    ∃ (row : Row) (sets2 : SeenSets) (r2 : impl.R), ∀ (w : World) (c : Nat),
      fbGenerateRow impl w fields sets { rng := r, uuidCtr := c } i =
        (row, sets2, { rng := r2, uuidCtr := c })
  | [], _, sets, r, i => ⟨[], sets, r, fun w c => rfl⟩
  | f :: rest, hgood, sets, r, i => by
    obtain ⟨hf, hrest⟩ := List.forall_mem_cons.mp hgood
    obtain ⟨v, sets1, r1, hfield⟩ :=
      fbGenerateField_indep impl f hf.1 hf.2.1 hf.2.2 sets r i
    obtain ⟨row, sets2, r2, hrow⟩ :=
      fbGenerateRow_indep impl rest hrest sets1 r1 i
    exact ⟨(f.name, v) :: row, sets2, r2, fun w c => by
      simp only [fbGenerateRow, hfield w c, hrow w c]⟩

theorem fbGenerateRows_indep (impl : RngImpl)
    (fields : List FieldDefinition)
    (hgood : ∀ f ∈ fields, f.type ≠ .uuid ∧ f.type ≠ .date ∧ f.type ≠ .datetime) :
    ∀ (n : Nat) (sets : SeenSets) (r : impl.R) (i : Int),
    ∃ (rows : List Row) (r2 : impl.R), ∀ (w : World) (c : Nat),
      fbGenerateRows impl w fields sets { rng := r, uuidCtr := c } i n =
        (rows, { rng := r2, uuidCtr := c })
  | 0, sets, r, i => ⟨[], r, fun w c => rfl⟩
  | n + 1, sets, r, i => by
    obtain ⟨row, sets1, r1, hrow⟩ := fbGenerateRow_indep impl fields hgood sets r i
    obtain ⟨rows, r2, hrows⟩ := fbGenerateRows_indep impl fields hgood n sets1 r1 (i + 1)
    exact ⟨row :: rows, r2, fun w c => by
      simp only [fbGenerateRows, hrow w c, hrows w c]⟩

/-- Claim C10 amended: generate_data_chunk is deterministic under a seed
exactly when no field draws from outside the seeded PRNG: for a schema
with no uuid, date or datetime field, the produced rows are a function of
(schema, rows, existing values, seed) alone, independent of the uuid
stream position and the clock, so two calls with the same seed agree; a
uuid field consumes uuid4 values and breaks this, as the counterexample
shows. -/
theorem fallback_deterministic_without_uuid_date_datetime (impl : RngImpl) (w1 w2 : World)
    (schema : DataSchema) (n : Nat)
    (existing : List (String × List PyValue)) (seed : Option Int) (c1 c2 : Nat)
    (hgood : ∀ f ∈ schema.fields,
      f.type ≠ .uuid ∧ f.type ≠ .date ∧ f.type ≠ .datetime) :
    (generate_data_chunk impl w1 schema n existing seed c1).fst =
      (generate_data_chunk impl w2 schema n existing seed c2).fst := by
  obtain ⟨rows, r2, hrows⟩ :=
    fbGenerateRows_indep impl schema.fields hgood n
      (existing.map (fun kv => (kv.fst, kv.snd))) (impl.init seed) 0
  simp only [generate_data_chunk, hrows w1 c1, hrows w2 c2]

/-- Closed instance of the amended claim C10 theorem: a seed-driven schema
generated under two different worlds and uuid positions. -/
theorem fallback_deterministic_without_uuid_date_datetime_witness :
    (generate_data_chunk testRng wStream seededSchema 2 [] (some 42) 0).fst =
      (generate_data_chunk testRng
        { uuids := fun _ => "Z", todayDays := 0, nowMinutes := 0 }
        seededSchema 2 [] (some 42) 7).fst :=
  fallback_deterministic_without_uuid_date_datetime testRng wStream
    { uuids := fun _ => "Z", todayDays := 0, nowMinutes := 0 }
    seededSchema 2 [] (some 42) 0 7 (by decide)
